import Mathlib

/-!
Verification of the plwr client--daemon session protocol.

This file is a shallow embedding of the Rust sources:
  * `src/protocol.rs` — the `Command` union, `requires_page`, and the
    `{ok, value, error}` `Response` record with its three constructors;
  * `src/client.rs`  — `send`, `send_if_running`, `ensure_started` and the
    `start_daemon` bootstrap read loop;
  * `src/daemon.rs`  — the accept/dispatch gate, `handle_command`'s two-match
    structure, the `wait_all` polling loop, the Stop-path video finalisation,
    and the `clean_error` normalisation pipeline.

External effects (the Playwright engine, the filesystem, the socket) are
abstracted as oracles: each engine/filesystem call the Rust code makes becomes
one field of an oracle record, and the Lean functions reproduce the Rust
control flow over those oracles.  Machine integers (`u64`, `u32`) carry no
overflowing arithmetic in the modelled code and are embedded as `Nat`.
-/

namespace Plwr

/-- A minimal JSON value model standing in for `serde_json::Value`. -/
inductive Json where
  | null : Json
  | bool (b : Bool) : Json
  | num (n : Nat) : Json
  | str (s : String) : Json
  | arr (elems : List Json) : Json
  | obj (fields : List (String × Json)) : Json
deriving Repr

/-- `protocol.rs`: the tagged `Command` union, one constructor per variant,
with the exact field lists of the source. -/
inductive Command where
  | open_ (url : String)
  | reload
  | url
  | wait (selector : String) (timeout : Nat)
  | waitNot (selector : String) (timeout : Nat)
  | click (selector : String) (timeout : Nat)
  | fill (selector : String) (text : String) (timeout : Nat)
  | press (key : String)
  | exists_ (selector : String)
  | text (selector : String) (timeout : Nat)
  | attr (selector : String) (name : String) (timeout : Nat)
  | count (selector : String)
  | eval (js : String)
  | screenshot (selector : Option String) (path : String) (timeout : Nat)
  | tree (selector : Option String) (timeout : Nat)
  | header (name : String) (value : String)
  | headerClear
  | cookie (name : String) (value : String) (url : String)
  | cookieList
  | cookieClear
  | viewport (width : Nat) (height : Nat)
  | inputFiles (selector : String) (paths : List String) (timeout : Nat)
  | select (selector : String) (values : List String) (byLabel : Bool) (timeout : Nat)
  | hover (selector : String) (timeout : Nat)
  | check (selector : String) (timeout : Nat)
  | uncheck (selector : String) (timeout : Nat)
  | dblclick (selector : String) (timeout : Nat)
  | focus (selector : String) (timeout : Nat)
  | blur (selector : String) (timeout : Nat)
  | innerHtml (selector : String) (timeout : Nat)
  | inputValue (selector : String) (timeout : Nat)
  | scrollIntoView (selector : String) (timeout : Nat)
  | videoStart (dir : String)
  | videoStop (output : String)
  | stop
deriving DecidableEq, Repr

namespace Command

/-- `protocol.rs` `Command::requires_page`:
`!matches!(self, Open | Stop | Header | HeaderClear | Viewport)`. -/
def requires_page : Command → Bool
  | .open_ _ | .stop | .header _ _ | .headerClear | .viewport _ _ => false
  | _ => true

end Command

/-- `protocol.rs`: the `Response` record `{ok, value, error}`. -/
structure Response where
  ok : Bool
  value : Option Json
  error : Option String
deriving Repr

namespace Response

/-- `Response::ok_empty`. -/
def ok_empty : Response := { ok := true, value := none, error := none }

/-- `Response::ok_value`. -/
def ok_value (v : Json) : Response := { ok := true, value := some v, error := none }

/-- `Response::err`. -/
def err (msg : String) : Response := { ok := false, value := none, error := some msg }

end Response

/-! ### Wire encoding (serde: internally tagged, snake_case)

`Command` derives `Serialize`/`Deserialize` with
`#[serde(tag = "type", rename_all = "snake_case")]`: the wire frame is a JSON
object carrying a `"type"` tag plus the variant's fields; `Option` fields
serialise to `null` when `None` and deserialise from `null` or from an absent
field back to `None`. -/

/-- Serialisation of one `Command` to its wire object, mirroring serde's
internally-tagged snake_case encoding of the enum in `protocol.rs`. -/
def encodeCommand : Command → Json
  | .open_ url => .obj [("type", .str "open"), ("url", .str url)]
  | .reload => .obj [("type", .str "reload")]
  | .url => .obj [("type", .str "url")]
  | .wait s t => .obj [("type", .str "wait"), ("selector", .str s), ("timeout", .num t)]
  | .waitNot s t => .obj [("type", .str "wait_not"), ("selector", .str s), ("timeout", .num t)]
  | .click s t => .obj [("type", .str "click"), ("selector", .str s), ("timeout", .num t)]
  | .fill s x t =>
      .obj [("type", .str "fill"), ("selector", .str s), ("text", .str x), ("timeout", .num t)]
  | .press k => .obj [("type", .str "press"), ("key", .str k)]
  | .exists_ s => .obj [("type", .str "exists"), ("selector", .str s)]
  | .text s t => .obj [("type", .str "text"), ("selector", .str s), ("timeout", .num t)]
  | .attr s n t =>
      .obj [("type", .str "attr"), ("selector", .str s), ("name", .str n), ("timeout", .num t)]
  | .count s => .obj [("type", .str "count"), ("selector", .str s)]
  | .eval js => .obj [("type", .str "eval"), ("js", .str js)]
  | .screenshot sel p t =>
      .obj [("type", .str "screenshot"),
            ("selector", match sel with | some s => .str s | none => .null),
            ("path", .str p), ("timeout", .num t)]
  | .tree sel t =>
      .obj [("type", .str "tree"),
            ("selector", match sel with | some s => .str s | none => .null),
            ("timeout", .num t)]
  | .header n v => .obj [("type", .str "header"), ("name", .str n), ("value", .str v)]
  | .headerClear => .obj [("type", .str "header_clear")]
  | .cookie n v u =>
      .obj [("type", .str "cookie"), ("name", .str n), ("value", .str v), ("url", .str u)]
  | .cookieList => .obj [("type", .str "cookie_list")]
  | .cookieClear => .obj [("type", .str "cookie_clear")]
  | .viewport w h => .obj [("type", .str "viewport"), ("width", .num w), ("height", .num h)]
  | .inputFiles s ps t =>
      .obj [("type", .str "input_files"), ("selector", .str s),
            ("paths", .arr (ps.map .str)), ("timeout", .num t)]
  | .select s vs bl t =>
      .obj [("type", .str "select"), ("selector", .str s), ("values", .arr (vs.map .str)),
            ("by_label", .bool bl), ("timeout", .num t)]
  | .hover s t => .obj [("type", .str "hover"), ("selector", .str s), ("timeout", .num t)]
  | .check s t => .obj [("type", .str "check"), ("selector", .str s), ("timeout", .num t)]
  | .uncheck s t => .obj [("type", .str "uncheck"), ("selector", .str s), ("timeout", .num t)]
  | .dblclick s t => .obj [("type", .str "dblclick"), ("selector", .str s), ("timeout", .num t)]
  | .focus s t => .obj [("type", .str "focus"), ("selector", .str s), ("timeout", .num t)]
  | .blur s t => .obj [("type", .str "blur"), ("selector", .str s), ("timeout", .num t)]
  | .innerHtml s t =>
      .obj [("type", .str "inner_html"), ("selector", .str s), ("timeout", .num t)]
  | .inputValue s t =>
      .obj [("type", .str "input_value"), ("selector", .str s), ("timeout", .num t)]
  | .scrollIntoView s t =>
      .obj [("type", .str "scroll_into_view"), ("selector", .str s), ("timeout", .num t)]
  | .videoStart d => .obj [("type", .str "video_start"), ("dir", .str d)]
  | .videoStop o => .obj [("type", .str "video_stop"), ("output", .str o)]
  | .stop => .obj [("type", .str "stop")]

/-- Field lookup in a decoded JSON object (first occurrence wins, as serde). -/
def getField (fields : List (String × Json)) (key : String) : Option Json :=
  match fields with
  | [] => none
  | (k, v) :: rest => if k = key then some v else getField rest key

/-- Decode a required string field. -/
def getStr (fields : List (String × Json)) (key : String) : Option String :=
  match getField fields key with
  | some (.str s) => some s
  | _ => none

/-- Decode a required unsigned-integer field. -/
def getNat (fields : List (String × Json)) (key : String) : Option Nat :=
  match getField fields key with
  | some (.num n) => some n
  | _ => none

/-- Decode a required boolean field. -/
def getBool (fields : List (String × Json)) (key : String) : Option Bool :=
  match getField fields key with
  | some (.bool b) => some b
  | _ => none

/-- Decode an `Option<String>` field: `null` or an absent field decode to
`None`, a string decodes to `Some` (serde's behaviour for `Option`). -/
def getOptStr (fields : List (String × Json)) (key : String) : Option (Option String) :=
  match getField fields key with
  | some (.str s) => some (some s)
  | some .null => some none
  | none => some none
  | _ => none

/-- Decode a JSON array of strings. -/
def decodeStrs : List Json → Option (List String)
  | [] => some []
  | .str s :: rest => (decodeStrs rest).map (s :: ·)
  | _ => none

/-- Decode a `Vec<String>` field. -/
def getStrList (fields : List (String × Json)) (key : String) : Option (List String) :=
  match getField fields key with
  | some (.arr elems) => decodeStrs elems
  | _ => none

/-- Deserialisation of one wire object back to a `Command`: read the `"type"`
tag, then extract the variant's fields, mirroring serde's internally-tagged
decoding of the enum in `protocol.rs`. -/
def decodeCommand (j : Json) : Option Command :=
  match j with
  | .obj fields =>
    match getStr fields "type" with
    | some "open" => (getStr fields "url").map .open_
    | some "reload" => some .reload
    | some "url" => some .url
    | some "wait" => do pure (.wait (← getStr fields "selector") (← getNat fields "timeout"))
    | some "wait_not" =>
        do pure (.waitNot (← getStr fields "selector") (← getNat fields "timeout"))
    | some "click" => do pure (.click (← getStr fields "selector") (← getNat fields "timeout"))
    | some "fill" =>
        do pure (.fill (← getStr fields "selector") (← getStr fields "text")
                  (← getNat fields "timeout"))
    | some "press" => (getStr fields "key").map .press
    | some "exists" => (getStr fields "selector").map .exists_
    | some "text" => do pure (.text (← getStr fields "selector") (← getNat fields "timeout"))
    | some "attr" =>
        do pure (.attr (← getStr fields "selector") (← getStr fields "name")
                  (← getNat fields "timeout"))
    | some "count" => (getStr fields "selector").map .count
    | some "eval" => (getStr fields "js").map .eval
    | some "screenshot" =>
        do pure (.screenshot (← getOptStr fields "selector") (← getStr fields "path")
                  (← getNat fields "timeout"))
    | some "tree" =>
        do pure (.tree (← getOptStr fields "selector") (← getNat fields "timeout"))
    | some "header" => do pure (.header (← getStr fields "name") (← getStr fields "value"))
    | some "header_clear" => some .headerClear
    | some "cookie" =>
        do pure (.cookie (← getStr fields "name") (← getStr fields "value")
                  (← getStr fields "url"))
    | some "cookie_list" => some .cookieList
    | some "cookie_clear" => some .cookieClear
    | some "viewport" =>
        do pure (.viewport (← getNat fields "width") (← getNat fields "height"))
    | some "input_files" =>
        do pure (.inputFiles (← getStr fields "selector") (← getStrList fields "paths")
                  (← getNat fields "timeout"))
    | some "select" =>
        do pure (.select (← getStr fields "selector") (← getStrList fields "values")
                  (← getBool fields "by_label") (← getNat fields "timeout"))
    | some "hover" => do pure (.hover (← getStr fields "selector") (← getNat fields "timeout"))
    | some "check" => do pure (.check (← getStr fields "selector") (← getNat fields "timeout"))
    | some "uncheck" =>
        do pure (.uncheck (← getStr fields "selector") (← getNat fields "timeout"))
    | some "dblclick" =>
        do pure (.dblclick (← getStr fields "selector") (← getNat fields "timeout"))
    | some "focus" => do pure (.focus (← getStr fields "selector") (← getNat fields "timeout"))
    | some "blur" => do pure (.blur (← getStr fields "selector") (← getNat fields "timeout"))
    | some "inner_html" =>
        do pure (.innerHtml (← getStr fields "selector") (← getNat fields "timeout"))
    | some "input_value" =>
        do pure (.inputValue (← getStr fields "selector") (← getNat fields "timeout"))
    | some "scroll_into_view" =>
        do pure (.scrollIntoView (← getStr fields "selector") (← getNat fields "timeout"))
    | some "video_start" => (getStr fields "dir").map .videoStart
    | some "video_stop" => (getStr fields "output").map .videoStop
    | some "stop" => some .stop
    | _ => none
  | _ => none

/-! ### Error normalizer (`daemon.rs` `clean_error`)

The Rust function works on `&str`; the model works on `List Char` (with a
`String` wrapper), so that every step is a structurally recursive function.
Rust's `char::is_whitespace` / `str::lines` handle full Unicode whitespace and
`\r\n`; the model covers the ASCII whitespace `' '`, `'\t'`, `'\n'`, `'\r'`
relevant to the engine's error strings. -/

/-- `str::starts_with` on character lists. -/
def startsWithL : List Char → List Char → Bool
  | [], _ => true
  | _ :: _, [] => false
  | p :: ps, c :: cs => p = c && startsWithL ps cs

/-- `str::ends_with` on character lists. -/
def endsWithL (p s : List Char) : Bool := startsWithL p.reverse s.reverse

/-- `str::contains` on character lists. -/
def containsSub (p : List Char) : List Char → Bool
  | [] => startsWithL p []
  | c :: cs => startsWithL p (c :: cs) || containsSub p cs

/-- `str::rfind(pat)` returning the suffix from the last occurrence
(`msg.rfind(pat).map(|i| &msg[i..])`). -/
def rtail (p : List Char) : List Char → Option (List Char)
  | [] => if startsWithL p [] then some [] else none
  | c :: cs =>
    match rtail p cs with
    | some t => some t
    | none => if startsWithL p (c :: cs) then some (c :: cs) else none

/-- `s.find(ch).map(|j| &s[..=j])`: everything up to and including the first
occurrence of a character. -/
def upToIncl (t : Char) : List Char → Option (List Char)
  | [] => none
  | c :: cs => if c = t then some [c] else (upToIncl t cs).map (c :: ·)

/-- `s.split(pat).next()`: the prefix before the first occurrence of `pat`
(the whole string when `pat` does not occur). -/
def beforeFirst (p : List Char) : List Char → List Char
  | [] => []
  | c :: cs => if startsWithL p (c :: cs) then [] else c :: beforeFirst p cs

/-- `s.find(pat).map(|i| &s[i + pat.len()..])`: everything after the first
occurrence of `pat`. -/
def afterFirst (p : List Char) : List Char → Option (List Char)
  | [] => if startsWithL p [] then some [] else none
  | c :: cs =>
    if startsWithL p (c :: cs) then some ((c :: cs).drop p.length)
    else afterFirst p cs

/-- Split on a character (every occurrence, keeping empty pieces). -/
def splitOnChar (t : Char) : List Char → List (List Char)
  | [] => [[]]
  | c :: cs =>
    if c = t then [] :: splitOnChar t cs
    else
      match splitOnChar t cs with
      | [] => [[c]]
      | h :: r => (c :: h) :: r

/-- `str::lines`: split on `'\n'`, with no trailing empty line when the string
ends in a newline, and no line at all for the empty string. -/
def linesL (s : List Char) : List (List Char) :=
  if s.isEmpty then []
  else if endsWithL ['\n'] s then (splitOnChar '\n' s).dropLast
  else splitOnChar '\n' s

/-- `Vec<&str>::join("\n")`. -/
def joinLines : List (List Char) → List Char
  | [] => []
  | [l] => l
  | l :: r => l ++ '\n' :: joinLines r

/-- `str::trim_end`. -/
def trimEndL (s : List Char) : List Char := (s.reverse.dropWhile Char.isWhitespace).reverse

/-- `str::strip_prefix`. -/
def stripPfx (p s : List Char) : Option (List Char) :=
  if startsWithL p s then some (s.drop p.length) else none

/-- `str::strip_suffix`. -/
def stripSfx (p s : List Char) : Option (List Char) :=
  (stripPfx p.reverse s.reverse).map List.reverse

/-- First element of a list of lines, with a default
(`msg.lines().next().unwrap_or(msg)`). -/
def headD (l : List (List Char)) (d : List Char) : List Char :=
  match l with
  | [] => d
  | h :: _ => h

/-- The `"[selector: "` annotation pattern. -/
def pSelector : List Char := "[selector: ".data

/-- The stack-trace boundary `" \n "` appended by Playwright. -/
def pStackSep : List Char := " \n ".data

/-- The JS stack-frame line marker `"    at "`. -/
def pAtFrame : List Char := "    at ".data

/-- First fixed part of the multi-element disambiguation hint
(`"\n\nHint: use '>> nth=0' to select the first match, e.g.:\n  plwr <command> \""`). -/
def hintA : List Char :=
  "\n\nHint: use '>> nth=0' to select the first match, e.g.:\n  plwr <command> \"".data

/-- Second fixed part of the multi-element disambiguation hint
(`"\" >> nth=0\""` up to the closing quote). -/
def hintB : List Char := " >> nth=0\"".data

/-- Step 1 of `clean_error`: the trailing `[selector: ...]` annotation
(`msg.rfind("[selector: ").map(..).and_then(|s| s.find(']').map(..)).unwrap_or("")`). -/
def sfxOf (msg : List Char) : List Char :=
  ((rtail pSelector msg).bind (upToIncl ']')).getD []

/-- Step 2 of `clean_error`: truncate at the first `" \n "` boundary, then
drop the lines from the first `"    at "` stack frame on. -/
def stripStack (msg : List Char) : List Char :=
  joinLines ((linesL (beforeFirst pStackSep msg)).takeWhile (fun l => !startsWithL pAtFrame l))

/-- Step 3 of `clean_error`: strip the nested context prefixes in the source's
order. -/
def stripPrefixes (msg : List Char) : List Char :=
  let msg3 := (stripPfx "Protocol error: ".data msg).getD msg
  let msg4 := (stripPfx "Protocol error ".data msg3).getD msg3
  let msg5 :=
    if startsWithL ['('] msg4 then (afterFirst ": ".data msg4).getD msg4 else msg4
  let msg6 := (stripPfx "Error: ".data msg5).getD msg5
  (stripPfx "strict mode violation: ".data msg6).getD msg6

/-- Step 4 of `clean_error`: the first remaining line, right-trimmed. -/
def firstLineOf (msg : List Char) : List Char := trimEndL (headD (linesL msg) msg)

/-- The multi-element hint trigger:
`cleaned.contains("resolved to") && cleaned.contains("elements")`. -/
def trigger (cleaned : List Char) : Bool :=
  containsSub "resolved to".data cleaned && containsSub "elements".data cleaned

/-- The selector text used in the hint:
`selector_suffix.strip_prefix("[selector: ").and_then(strip_suffix(']')).unwrap_or("SELECTOR")`. -/
def selOf (sfx : List Char) : List Char :=
  ((stripPfx pSelector sfx).bind (stripSfx [']'])).getD "SELECTOR".data

/-- `daemon.rs` `clean_error`, on character lists: extract a trailing
`[selector: ...]` annotation, truncate stack traces, strip the known nested
prefixes, take the first line trimmed, re-append the annotation unless the
line already ends in `']'`, and append the multi-element hint when the message
mentions a selector resolving to several elements. -/
def cleanErrorL (msg : List Char) : List Char :=
  let selectorSuffix := sfxOf msg
  let firstLine := firstLineOf (stripPrefixes (stripStack msg))
  let cleaned :=
    if selectorSuffix.isEmpty || endsWithL [']'] firstLine then firstLine
    else firstLine ++ ' ' :: selectorSuffix
  if trigger cleaned then cleaned ++ hintA ++ selOf selectorSuffix ++ hintB
  else cleaned

/-- `clean_error` on `String`s. -/
def clean_error (msg : String) : String := ⟨cleanErrorL msg.data⟩

/-- `str::contains` on `String`s. -/
def containsStr (p s : String) : Bool := containsSub p.data s.data

/-! ### Wait engine (`daemon.rs` polling loops)

Polling is modelled on discrete poll instants `i = 0, 1, 2, ...`; each loop
iteration then sleeps its fixed interval (50ms, or 100ms for `WaitNot`), so
the elapsed time observed at instant `i` is `interval * i` milliseconds.  The
engine's `loc.count()`/`is_visible()` observations become a pure oracle
`vis : Nat → String → Bool` ("selector `s` matches a visible element at poll
instant `i`"), which is the code's `n > 0 && is_visible` with query failures
read as not-visible (`unwrap_or`/`continue` in the source). -/

/-- One `WaitAll` iteration chain starting at poll instant `i`
(`daemon.rs`, `Command::WaitAll`): succeed when every selector is visible at
the same instant; once `elapsed > timeout`, re-query each selector at that
instant and fail listing exactly the ones still not visible. -/
def waitAllAux (vis : Nat → String → Bool) (selectors : List String) (timeout : Nat)
    (i : Nat) : Except String Response :=
  if selectors.all (vis i) then .ok Response.ok_empty
  else if 50 * i > timeout then
    .error ("Timeout " ++ toString timeout ++ "ms exceeded. Still missing: [" ++
      String.intercalate ", " (selectors.filter (fun s => !(vis i s))) ++ "]")
  else waitAllAux vis selectors timeout (i + 1)
termination_by timeout / 50 + 1 - i
decreasing_by
  have h : i ≤ timeout / 50 := (Nat.le_div_iff_mul_le (by norm_num)).mpr (by omega)
  omega

/-- The `WaitAll` polling loop from its start. -/
def wait_all (vis : Nat → String → Bool) (selectors : List String) (timeout : Nat) :
    Except String Response :=
  waitAllAux vis selectors timeout 0

/-- `daemon.rs` `wait_for_visible` from poll instant `i`: poll every 50ms until
the selector matches a visible element, failing once `elapsed > timeout` with
the fixed timeout message carrying the selector annotation. -/
def waitForVisibleAux (vis : Nat → String → Bool) (selector : String) (timeout : Nat)
    (i : Nat) : Except String Unit :=
  if vis i selector then .ok ()
  else if 50 * i > timeout then
    .error ("Timeout " ++ toString timeout ++ "ms exceeded. [selector: " ++ selector ++ "]")
  else waitForVisibleAux vis selector timeout (i + 1)
termination_by timeout / 50 + 1 - i
decreasing_by
  have h : i ≤ timeout / 50 := (Nat.le_div_iff_mul_le (by norm_num)).mpr (by omega)
  omega

/-- `wait_for_visible` from its start. -/
def wait_for_visible (vis : Nat → String → Bool) (selector : String) (timeout : Nat) :
    Except String Unit :=
  waitForVisibleAux vis selector timeout 0

/-- `daemon.rs` `Command::WaitNot` from poll instant `i`: poll the match count
every 100ms until it drops to zero (`countAt` is the engine's `loc.count()`
with errors read as 0, as the source's `unwrap_or(0)`). -/
def waitNotAux (countAt : Nat → String → Nat) (selector : String) (timeout : Nat)
    (i : Nat) : Except String Unit :=
  if countAt i selector = 0 then .ok ()
  else if 100 * i > timeout then
    .error ("Timeout waiting for '" ++ selector ++ "' to disappear")
  else waitNotAux countAt selector timeout (i + 1)
termination_by timeout / 100 + 1 - i
decreasing_by
  have h : i ≤ timeout / 100 := (Nat.le_div_iff_mul_le (by norm_num)).mpr (by omega)
  omega

/-- `wait_not` from its start. -/
def wait_not (countAt : Nat → String → Nat) (selector : String) (timeout : Nat) :
    Except String Unit :=
  waitNotAux countAt selector timeout 0

/-! ### Client (`client.rs`)

`send`/`send_if_running`/`ensure_started` are modelled with explicit traces
recording how many socket connection attempts and daemon spawns each operation
performs, so that "validates liveness by connecting" and "invokes the
bootstrap sequence" are inspectable facts of the model. -/

/-- Outcome of the `start_daemon` readiness read loop (`client.rs` 90-113). -/
inductive BootOutcome where
  /-- The literal `"### ready"` line was read: the child handle is dropped and
  bootstrap returns `Ok(())`. -/
  | ready
  /-- A `"### error "` line was read: `child.wait()` then `bail!(msg)`. -/
  | startupError (msg : String)
  /-- The pipe closed with no sentinel: `child.wait()` then
  `bail!("Daemon exited unexpectedly")`. -/
  | exitedUnexpectedly
  /-- A line arrived after the deadline: `child.kill()` then
  `bail!("Daemon did not start within 30s")`. -/
  | timedOutKilled
  /-- `line?` failed with a read error, which propagates. -/
  | readError (e : String)
  /-- The pipe never yields another line and never closes: `reader.lines()`
  blocks and the loop never exits. -/
  | blockedForever
deriving DecidableEq, Repr

/-- `client.rs` `start_daemon`'s read loop over the child's stdout.  The input
is the sequence of line events the pipe produces — each an arrival time in
milliseconds since the deadline started, paired with the read line or a read
error — followed by whether the pipe ever closes (`true`) or stays open and
silent forever (`false`).  The deadline (`STARTUP_TIMEOUT` = 30s) is compared
(strictly) against the clock only after the blocking `lines()` iterator has
produced a line. -/
def startDaemonLoop : List (Nat × Except String String) → Bool → BootOutcome
  | [], true => .exitedUnexpectedly
  | [], false => .blockedForever
  | (t, l) :: rest, closes =>
    if t > 30000 then .timedOutKilled
    else
      match l with
      | .error e => .readError e
      | .ok line =>
        if line = "### ready" then .ready
        else if line.startsWith "### error " then .startupError (line.drop 10)
        else startDaemonLoop rest closes

/-- Trace of one `client.rs` `send` invocation. -/
structure SendTrace where
  /-- Socket connection attempts made. -/
  connectAttempts : Nat
  /-- Daemon processes spawned. -/
  spawns : Nat
  /-- The returned `Result<Response>`. -/
  result : Except String Response
deriving Repr

/-- `client.rs` `send`: connect once; on success exchange one framed request
for one framed response; on connection failure fail immediately with the fixed
message — no spawn, no retry. -/
def send (connects : Bool) (exchange : Except String Response) : SendTrace :=
  if connects then { connectAttempts := 1, spawns := 0, result := exchange }
  else
    { connectAttempts := 1, spawns := 0,
      result := .error "No session running. Use 'plwr start' first." }

/-- Trace of one `client.rs` `send_if_running` invocation. -/
structure SendIfTrace where
  /-- Socket connection attempts made. -/
  connectAttempts : Nat
  /-- `Ok(None)` when no daemon was reachable. -/
  result : Except String (Option Response)
deriving Repr

/-- `client.rs` `send_if_running`: connect once; `Ok(None)` on connection
failure, otherwise exchange. -/
def send_if_running (connects : Bool) (exchange : Except String Response) : SendIfTrace :=
  if connects then
    { connectAttempts := 1,
      result := match exchange with
                | .ok r => .ok (some r)
                | .error e => .error e }
  else { connectAttempts := 1, result := .ok none }

/-- Trace of one `client.rs` `ensure_started` invocation.  `result = none`
models a call that never returns (a bootstrap that blocks forever). -/
structure EnsureTrace where
  /-- Socket connection attempts made. -/
  connectAttempts : Nat
  /-- Whether a daemon process was spawned. -/
  spawned : Bool
  /-- The returned `Result<()>`, absent when the call never returns. -/
  result : Option (Except String Unit)
deriving Repr

/-- Map a bootstrap outcome to `start_daemon`'s return value (`none` when the
read loop never exits). -/
def bootResult : BootOutcome → Option (Except String Unit)
  | .ready => some (.ok ())
  | .startupError m => some (.error m)
  | .exitedUnexpectedly => some (.error "Daemon exited unexpectedly")
  | .timedOutKilled => some (.error "Daemon did not start within 30s")
  | .readError e => some (.error e)
  | .blockedForever => none

/-- `client.rs` `ensure_started`: when the socket file exists, return `Ok(())`
at once — no connection is attempted; otherwise run `start_daemon` (which
removes any stale file, spawns the child and reads its readiness channel,
never connecting to the socket itself). -/
def ensure_started (socketExists : Bool) (boot : BootOutcome) : EnsureTrace :=
  if socketExists then { connectAttempts := 0, spawned := false, result := some (.ok ()) }
  else { connectAttempts := 0, spawned := true, result := bootResult boot }

/-! ### Video lifecycle (`daemon.rs`, `Command::Stop` with active video) -/

/-- `daemon.rs` `VideoState`: the requested output path and the temporary
capture directory. -/
structure VideoState where
  output_path : String
  temp_dir : String
deriving DecidableEq, Repr

/-- Filesystem/process oracle for the Stop-path video finalisation: each field
is one fallible call the source makes, in order. -/
structure StopFs where
  /-- `state.page.context()?`. -/
  getContext : Except String Unit
  /-- `state.page.close().await?`. -/
  closePage : Except String Unit
  /-- `ctx.close().await?`. -/
  closeContext : Except String Unit
  /-- `std::fs::read_dir(&vs.temp_dir)?` followed by the search for the first
  entry with extension `webm`: the found raw file's path, if any. -/
  readDir : Except String (Option String)
  /-- `std::fs::copy(&webm, &vs.output_path)?`. -/
  copy : Except String Unit
  /-- `Command::new("ffmpeg").args(["-y", "-i"]).…status()?`: a spawn error,
  or the exit status as (`status.success()`, the status's display form). -/
  ffmpeg : Except String (Bool × String)

/-- What the Stop-path video finalisation did. -/
structure StopVideoResult where
  /-- The `Result<Response>` value of the video block. -/
  result : Except String Response
  /-- Whether `remove_dir_all(&vs.temp_dir)` ran (it removes the raw file with
  the directory). -/
  tempRemoved : Bool
  /-- Whether ffmpeg was invoked. -/
  ffmpegInvoked : Bool
deriving Repr

/-- `daemon.rs` lines 286-318 (`Command::Stop`, `state.video.take()` hit):
close page and context, find the raw `.webm`; when the output path ends in
`.webm` (`ends_with(".webm")`, modelled on the character list) copy it,
otherwise transcode with ffmpeg (`-y -i raw out`); a non-zero
ffmpeg exit removes the temp dir and returns an `ffmpeg exited with …` error
response; all successful paths also remove the temp dir. -/
def stopVideo (vs : VideoState) (fs : StopFs) : StopVideoResult :=
  match fs.getContext with
  | .error e => ⟨.error e, false, false⟩
  | .ok () =>
    match fs.closePage with
    | .error e => ⟨.error e, false, false⟩
    | .ok () =>
      match fs.closeContext with
      | .error e => ⟨.error e, false, false⟩
      | .ok () =>
        match fs.readDir with
        | .error e => ⟨.error e, false, false⟩
        | .ok none => ⟨.ok Response.ok_empty, true, false⟩
        | .ok (some _) =>
          if endsWithL ".webm".data vs.output_path.data then
            match fs.copy with
            | .error e => ⟨.error e, false, false⟩
            | .ok () => ⟨.ok Response.ok_empty, true, false⟩
          else
            match fs.ffmpeg with
            | .error e => ⟨.error e, false, true⟩
            | .ok (success, disp) =>
              if !success then
                ⟨.ok (Response.err ("ffmpeg exited with " ++ disp)), true, true⟩
              else ⟨.ok Response.ok_empty, true, true⟩

/-! ### Command dispatcher (`daemon.rs` `run` and `handle_command`)

`handle_command`'s two-match structure is kept: a first match that handles the
state-mutating commands with early returns, then a second match over the rest
whose final arm — listing exactly the constructors of the first match — is
`unreachable!()`.

The provided `daemon.rs` also carries arms (`WaitAny`, `WaitAll`,
`ComputedStyle`, `Console`, `ConsoleClear`) for variants that are not part of
`protocol.rs`'s `Command`, and an `Open` arm reading a `timeout` field the
protocol variant does not have; the dispatcher is modelled over the protocol's
`Command` (which is also the one `main.rs` constructs), with the `WaitAll`
algorithm additionally modelled standalone above.  The `VideoStart`/`VideoStop`
handler arms are not present in the provided daemon source at all; they are
modelled from the spec below. -/

/-- A `SelectOption`: by value or by label. -/
inductive SelectOpt where
  | value (v : String)
  | label (v : String)
deriving DecidableEq, Repr

/-- `pw_ext::Cookie` as read back from the engine. -/
structure CookieM where
  name : String
  value : String
  domain : String
  path : String
  /-- `expires: f64`; floating point is kept abstract as its serialised JSON
  value. -/
  expires : Json
  http_only : Bool
  secure : Bool
  same_site : Option String

/-- The cookie-to-JSON mapping of the `CookieList` arm. -/
def cookieJson (c : CookieM) : Json :=
  .obj [("name", .str c.name), ("value", .str c.value), ("domain", .str c.domain),
        ("path", .str c.path), ("expires", c.expires), ("httpOnly", .bool c.http_only),
        ("secure", .bool c.secure),
        ("sameSite", match c.same_site with | some s => .str s | none => .null)]

/-- The automation-engine oracle: one field per engine/filesystem call
`handle_command` makes.  Selector observations for the polling loops are the
pure `vis`/`countAt` oracles of the wait engine. -/
structure Engine where
  /-- `page.add_init_script(CONSOLE_INTERCEPTOR_JS)`. -/
  addInitScript : Except String Unit
  /-- `page.goto(url, …)`. -/
  goto : String → Except String Unit
  /-- `page.context()?`. -/
  getContext : Except String Unit
  /-- `pw_ext::set_extra_http_headers(ctx, headers)`. -/
  setExtraHTTPHeaders : List (String × String) → Except String Unit
  /-- `page.url()`. -/
  pageUrl : String
  /-- `pw_ext::add_cookie(ctx, name, value, url)`. -/
  addCookie : String → String → String → Except String Unit
  /-- `pw_ext::get_cookies(ctx)`. -/
  getCookies : Except String (List CookieM)
  /-- `pw_ext::clear_cookies(ctx)`. -/
  clearCookies : Except String Unit
  /-- `page.set_viewport_size(Viewport)`. -/
  setViewportSize : Nat → Nat → Except String Unit
  /-- `page.reload(None)`. -/
  reload : Except String Unit
  /-- Visibility observation per poll instant (`loc.count() > 0 &&
  loc.first().is_visible()`). -/
  vis : Nat → String → Bool
  /-- Match-count observation per poll instant (`loc.count()`). -/
  countAt : Nat → String → Nat
  /-- Does a bare `loc.count()` stall past `CHANNEL_TIMEOUT` (30s)?  Models
  the `tokio::time::timeout` wrapper of the `Exists`/`Count` arms. -/
  countHangs : String → Bool
  /-- `loc.click(opts)`; the `Bool` is the `trial` flag (used by `Focus`). -/
  click : String → Nat → Bool → Except String Unit
  /-- `loc.fill(text, opts)`. -/
  fill : String → String → Nat → Except String Unit
  /-- `page.keyboard().press(key, None)`. -/
  press : String → Except String Unit
  /-- `loc.text_content()`. -/
  textContent : String → Except String (Option String)
  /-- `loc.get_attribute(name)`. -/
  getAttribute : String → String → Except String (Option String)
  /-- `loc.set_input_files_multiple(paths, None)`. -/
  setInputFiles : String → List String → Except String Unit
  /-- `loc.select_option(value, opts)` (single value). -/
  selectSingle : String → SelectOpt → Nat → Except String Unit
  /-- `loc.select_option_multiple(values, opts)`. -/
  selectMultiple : String → List SelectOpt → Nat → Except String Unit
  /-- `loc.hover(opts)`. -/
  hover : String → Nat → Except String Unit
  /-- `loc.check(opts)`. -/
  check : String → Nat → Except String Unit
  /-- `loc.uncheck(opts)`. -/
  uncheck : String → Nat → Except String Unit
  /-- `loc.dblclick(opts)`. -/
  dblclick : String → Nat → Except String Unit
  /-- `pw_ext::locator_focus(page, selector)`. -/
  focusJs : String → Except String Unit
  /-- `pw_ext::locator_blur(page, selector)`. -/
  blurJs : String → Except String Unit
  /-- `pw_ext::locator_scroll_into_view(page, selector)`. -/
  scrollJs : String → Except String Unit
  /-- `loc.inner_html()`. -/
  innerHtml : String → Except String String
  /-- `loc.input_value(None)`. -/
  inputValue : String → Except String String
  /-- `pw_ext::page_evaluate_value(page, js)`. -/
  evaluate : String → Except String String
  /-- `serde_json::from_str::<Value>` on engine output. -/
  parseJsonE : String → Except String Json
  /-- `serde_json::from_str::<String>` on engine output. -/
  parseString : String → Option String
  /-- `loc.screenshot(None)`: the captured bytes' count. -/
  screenshotElem : String → Except String Nat
  /-- `page.screenshot(None)`: the captured bytes' count. -/
  screenshotPage : Except String Nat
  /-- `std::fs::write(&path, &bytes)?`. -/
  writeFile : String → Except String Unit
  /-- `pw_ext::locator_eval_on_selector(page, selector, walk_js)` with the
  `Tree` arm's DOM-walk script (the script text is engine-side and
  uninterpreted here). -/
  treeWalk : String → Except String String
  /-- Modelled from the spec (§4.6 `video_start`): create the capture
  directory if absent and instruct the engine to begin recording. -/
  videoBegin : String → Except String Unit

/-- `daemon.rs` `State`: the daemon's single mutable session record (the
`Playwright`/`Page` handles live behind the `Engine` oracle). -/
structure DState where
  page_opened : Bool
  headers : List (String × String)
  video : Option VideoState
  console_initialized : Bool
deriving DecidableEq, Repr

/-- `HashMap::insert` on the association-list model of the header map:
replace the value under an existing name, else append. -/
def headerInsert (hs : List (String × String)) (n v : String) : List (String × String) :=
  match hs with
  | [] => [(n, v)]
  | (k, w) :: rest => if k = n then (k, v) :: rest else (k, w) :: headerInsert rest n v

/-- Result of one `handle_command` call: an `Ok(response)`, a propagated
engine error (`?`/`bail!`), or the `unreachable!()` arm (a panic). -/
inductive HRes where
  | resp (r : Response)
  | err (e : String)
  | unreachableHit
deriving Repr

/-- The fixed valid-key enumeration appended by the `Press` arm when the
normalized failure mentions an unknown key. -/
def validKeysHint : String :=
  "\n\nValid keys: a-z A-Z 0-9, Backspace Tab Enter Escape Space Delete Insert, " ++
  "ArrowUp ArrowDown ArrowLeft ArrowRight Home End PageUp PageDown, " ++
  "F1-F12, Control Shift Alt Meta, " ++
  "any US keyboard character: !@#$%^&*()_+-=[]\x7b\x7d\\|;':\",./<>?`~\n" ++
  "Chords: Control+c, Shift+Enter, Alt+Tab, Meta+a"

/-- The `Eval` arm's wrapper around the user script. -/
def evalWrapper (js : String) : String :=
  "() => \x7b const __r = (" ++ js ++
  "); return typeof __r === 'object' ? JSON.stringify(__r) : __r; \x7d"

/-- `handle_command`'s first match (`daemon.rs` 207-281): the state-mutating
commands, each ending in an early `return`; every other command falls
through (`_ => {}`). -/
def handleFirst (st : DState) (eng : Engine) : Command → Option (HRes × DState)
  | .open_ url =>
    some (
      if st.console_initialized then
        match eng.goto url with
        | .error e => (.err e, st)
        | .ok () => (.resp .ok_empty, { st with page_opened := true })
      else
        match eng.addInitScript with
        | .error e => (.err e, st)
        | .ok () =>
          let st' := { st with console_initialized := true }
          match eng.goto url with
          | .error e => (.err e, st')
          | .ok () => (.resp .ok_empty, { st' with page_opened := true }))
  | .header n v =>
    let st' := { st with headers := headerInsert st.headers n v }
    some (
      match eng.getContext with
      | .error e => (.err e, st')
      | .ok () =>
        match eng.setExtraHTTPHeaders st'.headers with
        | .error e => (.err e, st')
        | .ok () => (.resp .ok_empty, st'))
  | .headerClear =>
    let st' := { st with headers := [] }
    some (
      match eng.getContext with
      | .error e => (.err e, st')
      | .ok () =>
        match eng.setExtraHTTPHeaders [] with
        | .error e => (.err e, st')
        | .ok () => (.resp .ok_empty, st'))
  | .cookie n v u =>
    some (
      match eng.getContext with
      | .error e => (.err e, st)
      | .ok () =>
        let u' := if u = "" then eng.pageUrl else u
        match eng.addCookie n v u' with
        | .error e => (.err e, st)
        | .ok () => (.resp .ok_empty, st))
  | .cookieList =>
    some (
      match eng.getContext with
      | .error e => (.err e, st)
      | .ok () =>
        match eng.getCookies with
        | .error e => (.err e, st)
        | .ok cs => (.resp (.ok_value (.arr (cs.map cookieJson))), st))
  | .cookieClear =>
    some (
      match eng.getContext with
      | .error e => (.err e, st)
      | .ok () =>
        match eng.clearCookies with
        | .error e => (.err e, st)
        | .ok () => (.resp .ok_empty, st))
  | .viewport w h =>
    some (
      match eng.setViewportSize w h with
      | .error e => (.err e, st)
      | .ok () => (.resp .ok_empty, st))
  | _ => none

/-- Map an `Except` of the usual engine-call shape onto an `ok_empty`
response, keeping the state. -/
def unitArm (st : DState) (r : Except String Unit) : HRes × DState :=
  match r with
  | .error e => (.err e, st)
  | .ok () => (.resp .ok_empty, st)

/-- `handle_command`'s second match (`daemon.rs` 285-774): the read/interaction
commands over the open page, ending in the `unreachable!()` arm that lists
exactly the constructors consumed by the first match. -/
def handleSecond (st : DState) (eng : Engine) (fs : StopFs) : Command → HRes × DState
  | .stop =>
    match st.video with
    | some vs =>
      let st' := { st with video := none }
      match (stopVideo vs fs).result with
      | .error e => (.err e, st')
      | .ok r => (.resp r, st')
    | none => (.resp .ok_empty, st)
  | .reload => unitArm st eng.reload
  | .url => (.resp (.ok_value (.str eng.pageUrl)), st)
  | .wait sel t =>
    match wait_for_visible eng.vis sel t with
    | .error e => (.err e, st)
    | .ok () => (.resp .ok_empty, st)
  | .waitNot sel t =>
    match wait_not eng.countAt sel t with
    | .error e => (.err e, st)
    | .ok () => (.resp .ok_empty, st)
  | .click sel t => unitArm st (eng.click sel t false)
  | .fill sel text t => unitArm st (eng.fill sel text t)
  | .press key =>
    match eng.press key with
    | .ok () => (.resp .ok_empty, st)
    | .error e =>
      let msg := clean_error e
      if containsStr "Unknown key" msg then
        (.resp (.err (msg ++ validKeysHint)), st)
      else (.resp (.err msg), st)
  | .exists_ sel =>
    if eng.countHangs sel then
      (.err ("Timeout waiting for Playwright response. [selector: " ++ sel ++ "]"), st)
    else (.resp (.ok_value (.bool (eng.countAt 0 sel > 0))), st)
  | .text sel t =>
    match wait_for_visible eng.vis sel t with
    | .error e => (.err e, st)
    | .ok () =>
      match eng.textContent sel with
      | .error e => (.err e, st)
      | .ok v => (.resp (.ok_value (.str (v.getD ""))), st)
  | .attr sel name t =>
    match wait_for_visible eng.vis sel t with
    | .error e => (.err e, st)
    | .ok () =>
      match eng.getAttribute sel name with
      | .error e => (.err e, st)
      | .ok (some v) => (.resp (.ok_value (.str v)), st)
      | .ok none => (.resp (.ok_value .null), st)
  | .count sel =>
    if eng.countHangs sel then
      (.err ("Timeout waiting for Playwright response. [selector: " ++ sel ++ "]"), st)
    else (.resp (.ok_value (.num (eng.countAt 0 sel))), st)
  | .eval js =>
    match eng.evaluate (evalWrapper js) with
    | .error e => (.err e, st)
    | .ok val =>
      match eng.parseJsonE val with
      | .ok (.str s) =>
        match eng.parseJsonE s with
        | .ok (.obj o) => (.resp (.ok_value (.obj o)), st)
        | .ok (.arr a) => (.resp (.ok_value (.arr a)), st)
        | _ => (.resp (.ok_value (.str s)), st)
      | .ok v => (.resp (.ok_value v), st)
      | .error _ => (.resp (.ok_value (.str val)), st)
  | .screenshot sel path _ =>
    let bytes :=
      match sel with
      | some s => eng.screenshotElem s
      | none => eng.screenshotPage
    match bytes with
    | .error e => (.err e, st)
    | .ok n =>
      match eng.writeFile path with
      | .error e => (.err e, st)
      | .ok () =>
        (.resp (.ok_value (.str ("Saved " ++ toString n ++ " bytes to " ++ path))), st)
  | .tree sel _ =>
    let sel' := sel.getD "html"
    match eng.treeWalk sel' with
    | .error e => (.err e, st)
    | .ok val =>
      let jsonStr := (eng.parseString val).getD val
      match eng.parseJsonE jsonStr with
      | .error e => (.err e, st)
      | .ok tree => (.resp (.ok_value tree), st)
  | .inputFiles sel paths _ =>
    if paths.isEmpty then unitArm st (eng.setInputFiles sel [])
    else unitArm st (eng.setInputFiles sel paths)
  | .select sel values byLabel t =>
    let opts := values.map (fun v => if byLabel then SelectOpt.label v else SelectOpt.value v)
    match opts with
    | [v] => unitArm st (eng.selectSingle sel v t)
    | _ => unitArm st (eng.selectMultiple sel opts t)
  | .hover sel t => unitArm st (eng.hover sel t)
  | .check sel t => unitArm st (eng.check sel t)
  | .uncheck sel t => unitArm st (eng.uncheck sel t)
  | .dblclick sel t => unitArm st (eng.dblclick sel t)
  | .focus sel t =>
    match wait_for_visible eng.vis sel t with
    | .error e => (.err e, st)
    | .ok () =>
      match eng.click sel t true with
      | .error e => (.err e, st)
      | .ok () => unitArm st (eng.focusJs sel)
  | .blur sel t =>
    match wait_for_visible eng.vis sel t with
    | .error e => (.err e, st)
    | .ok () => unitArm st (eng.blurJs sel)
  | .innerHtml sel t =>
    match wait_for_visible eng.vis sel t with
    | .error e => (.err e, st)
    | .ok () =>
      match eng.innerHtml sel with
      | .error e => (.err e, st)
      | .ok html => (.resp (.ok_value (.str html)), st)
  | .inputValue sel t =>
    match wait_for_visible eng.vis sel t with
    | .error e => (.err e, st)
    | .ok () =>
      match eng.inputValue sel with
      | .error e => (.err e, st)
      | .ok v => (.resp (.ok_value (.str v)), st)
  | .scrollIntoView sel t =>
    match wait_for_visible eng.vis sel t with
    | .error e => (.err e, st)
    | .ok () => unitArm st (eng.scrollJs sel)
  | .videoStart dir =>
    -- Modelled from the spec: the `VideoStart` handler arm is not present in
    -- the provided daemon source.  Spec §4.6: create the directory if absent,
    -- begin recording, record the chosen directory in `VideoState`.
    match eng.videoBegin dir with
    | .error e => (.err e, st)
    | .ok () => (.resp .ok_empty, { st with video := some { output_path := "", temp_dir := dir } })
  | .videoStop output =>
    -- Modelled from the spec: the `VideoStop` handler arm is not present in
    -- the provided daemon source.  Spec §4.6: stop and finalise the capture,
    -- locate the raw file, copy or transcode to `output`, with the transcoder
    -- error naming the exit status; a missing raw file is the distinct
    -- "no video file found" error.
    match st.video with
    | none => (.resp (.err "no video recording in progress"), st)
    | some vs =>
      let st' := { st with video := none }
      match (stopVideo { vs with output_path := output } fs).result with
      | .error e => (.err e, st')
      | .ok r => (.resp r, st')
  | .open_ _ | .header _ _ | .headerClear | .cookie _ _ _
  | .cookieList | .cookieClear | .viewport _ _ => (.unreachableHit, st)

/-- `daemon.rs` `handle_command`: first match with early returns, else the
second match. -/
def handle_command (st : DState) (eng : Engine) (fs : StopFs) (c : Command) : HRes × DState :=
  match handleFirst st eng c with
  | some r => r
  | none => handleSecond st eng fs c

/-- The dispatch step of the accept loop (`daemon.rs` 174-187): commands that
require a page are rejected with the fixed "No page open" error before
`handle_command` runs; engine errors from `handle_command` are normalized by
`clean_error` into an error response.  `none` models the `unreachable!()`
panic (no reply is written). -/
def dispatchReply (st : DState) (eng : Engine) (fs : StopFs) (c : Command) :
    Option Response × DState :=
  if !st.page_opened && c.requires_page then
    (some (Response.err "No page open. Use 'plwr open <url>' first."), st)
  else
    match handle_command st eng fs c with
    | (.resp r, st') => (some r, st')
    | (.err e, st') => (some (Response.err (clean_error e)), st')
    | (.unreachableHit, st') => (none, st')

/-! ### Concrete oracles used by witnesses and counterexamples -/

/-- An engine oracle where every call succeeds. -/
def testEngine : Engine where
  addInitScript := .ok ()
  goto := fun _ => .ok ()
  getContext := .ok ()
  setExtraHTTPHeaders := fun _ => .ok ()
  pageUrl := "https://example.com/"
  addCookie := fun _ _ _ => .ok ()
  getCookies := .ok []
  clearCookies := .ok ()
  setViewportSize := fun _ _ => .ok ()
  reload := .ok ()
  vis := fun _ _ => true
  countAt := fun _ _ => 1
  countHangs := fun _ => false
  click := fun _ _ _ => .ok ()
  fill := fun _ _ _ => .ok ()
  press := fun _ => .ok ()
  textContent := fun _ => .ok (some "Example Domain")
  getAttribute := fun _ _ => .ok none
  setInputFiles := fun _ _ => .ok ()
  selectSingle := fun _ _ _ => .ok ()
  selectMultiple := fun _ _ _ => .ok ()
  hover := fun _ _ => .ok ()
  check := fun _ _ => .ok ()
  uncheck := fun _ _ => .ok ()
  dblclick := fun _ _ => .ok ()
  focusJs := fun _ => .ok ()
  blurJs := fun _ => .ok ()
  scrollJs := fun _ => .ok ()
  innerHtml := fun _ => .ok "<p>hi</p>"
  inputValue := fun _ => .ok ""
  evaluate := fun _ => .ok "1"
  parseJsonE := fun _ => .ok (.num 1)
  parseString := fun _ => none
  screenshotElem := fun _ => .ok 4
  screenshotPage := .ok 4
  writeFile := fun _ => .ok ()
  treeWalk := fun _ => .ok "t"
  videoBegin := fun _ => .ok ()

/-- A Stop-path filesystem oracle: raw capture found, everything succeeds. -/
def testFs : StopFs :=
  { getContext := .ok (), closePage := .ok (), closeContext := .ok (),
    readDir := .ok (some "video.webm"), copy := .ok (),
    ffmpeg := .ok (true, "exit status: 0") }

/-- `testFs` with a failing transcoder (non-zero exit). -/
def ffmpegFailFs : StopFs := { testFs with ffmpeg := .ok (false, "exit status: 1") }

/-- A video state whose requested output is an `.mp4` (transcoding required). -/
def vsMp4 : VideoState := { output_path := "demo.mp4", temp_dir := "/tmp/plwr-video/cap" }

/-- A daemon state with no page opened yet. -/
def stClosed : DState :=
  { page_opened := false, headers := [], video := none, console_initialized := false }

/-! ## Helper lemmas -/

/-- Decoding an encoded list of strings recovers the list. -/
lemma decodeStrs_map (ps : List String) : decodeStrs (ps.map Json.str) = some ps := by
  induction ps with
  | nil => rfl
  | cons h t ih => simp [List.map, decodeStrs, ih]

/-! ### C7 helpers: behaviour of the `wait_all` polling loop -/

/-- The first poll instant past the timeout really is past it. -/
lemma deadline_instant (T : Nat) : 50 * (T / 50 + 1) > T := by
  have h1 := Nat.div_add_mod T 50
  have h2 : T % 50 < 50 := Nat.mod_lt _ (by norm_num)
  omega

/-- An instant still within the timeout is at most `T / 50`. -/
lemma le_div50 {i T : Nat} (h : 50 * i ≤ T) : i ≤ T / 50 := by
  have h1 := Nat.div_add_mod T 50
  have h2 : T % 50 < 50 := Nat.mod_lt _ (by norm_num)
  omega

/-- `waitAllAux` at an all-visible instant succeeds. -/
lemma waitAllAux_all_step {vis : Nat → String → Bool} {sels : List String} {T i : Nat}
    (h : sels.all (vis i) = true) :
    waitAllAux vis sels T i = .ok Response.ok_empty := by
  unfold waitAllAux
  simp [h]

/-- `waitAllAux` at a not-all-visible instant within the timeout polls on. -/
lemma waitAllAux_cont {vis : Nat → String → Bool} {sels : List String} {T i : Nat}
    (h1 : sels.all (vis i) = false) (h2 : 50 * i ≤ T) :
    waitAllAux vis sels T i = waitAllAux vis sels T (i + 1) := by
  rw [waitAllAux.eq_def]
  simp [h1]
  intro hc
  exact absurd hc (by omega)

/-- `waitAllAux` at a not-all-visible instant past the timeout fails, naming
exactly the selectors not visible at that instant. -/
lemma waitAllAux_fail {vis : Nat → String → Bool} {sels : List String} {T i : Nat}
    (h1 : sels.all (vis i) = false) (h2 : 50 * i > T) :
    waitAllAux vis sels T i =
      .error ("Timeout " ++ toString T ++ "ms exceeded. Still missing: [" ++
        String.intercalate ", " (sels.filter (fun s => !(vis i s))) ++ "]") := by
  unfold waitAllAux
  simp [h1, h2]

/-- Reaching the first all-visible instant within the poll bound succeeds. -/
lemma waitAllAux_ok_of (vis : Nat → String → Bool) (sels : List String) (T : Nat) :
    ∀ (n i j : Nat), j - i ≤ n → i ≤ j → j ≤ T / 50 + 1 →
      sels.all (vis j) = true → (∀ k, i ≤ k → k < j → sels.all (vis k) = false) →
      waitAllAux vis sels T i = .ok Response.ok_empty := by
  intro n
  induction n with
  | zero =>
    intro i j h hij hj hall hmin
    have he : i = j := by omega
    subst he
    exact waitAllAux_all_step hall
  | succ n ih =>
    intro i j h hij hj hall hmin
    by_cases heq : i = j
    · subst heq; exact waitAllAux_all_step hall
    · have hij' : i < j := by omega
      have h1 : sels.all (vis i) = false := hmin i le_rfl hij'
      have h2 : 50 * i ≤ T := by
        have hd1 := Nat.div_add_mod T 50
        have hd2 : T % 50 < 50 := Nat.mod_lt _ (by norm_num)
        omega
      rw [waitAllAux_cont h1 h2]
      exact ih (i + 1) j (by omega) (by omega) hj hall (fun k hk1 hk2 => hmin k (by omega) hk2)

/-- A successful `waitAllAux` run exhibits a first all-visible instant, with
every earlier polled instant not-all-visible and within the timeout. -/
lemma waitAllAux_ok_inv (vis : Nat → String → Bool) (sels : List String) (T : Nat) :
    ∀ (n i : Nat) (r : Response), T / 50 + 1 - i ≤ n →
      waitAllAux vis sels T i = .ok r →
      ∃ j, i ≤ j ∧ sels.all (vis j) = true ∧
        (∀ k, i ≤ k → k < j → sels.all (vis k) = false ∧ 50 * k ≤ T) := by
  intro n
  induction n with
  | zero =>
    intro i r hn h
    by_cases hall : sels.all (vis i) = true
    · exact ⟨i, le_rfl, hall, fun k hk1 hk2 => absurd hk2 (by omega)⟩
    · have hgt : 50 * i > T := by
        have hd1 := Nat.div_add_mod T 50
        have hd2 : T % 50 < 50 := Nat.mod_lt _ (by norm_num)
        omega
      rw [waitAllAux_fail (by simpa using hall) hgt] at h
      simp at h
  | succ n ih =>
    intro i r hn h
    by_cases hall : sels.all (vis i) = true
    · exact ⟨i, le_rfl, hall, fun k hk1 hk2 => absurd hk2 (by omega)⟩
    · have hallf : sels.all (vis i) = false := by simpa using hall
      by_cases htime : 50 * i > T
      · rw [waitAllAux_fail hallf htime] at h
        simp at h
      · have h2 : 50 * i ≤ T := by omega
        rw [waitAllAux_cont hallf h2] at h
        obtain ⟨j, hj1, hj2, hj3⟩ := ih (i + 1) r (by have := le_div50 h2; omega) h
        refine ⟨j, by omega, hj2, fun k hk1 hk2 => ?_⟩
        rcases Nat.eq_or_lt_of_le hk1 with hk | hk
        · exact hk ▸ ⟨hallf, h2⟩
        · exact hj3 k (by omega) hk2

/-- When no polled instant is ever all-visible, the loop fails at the first
instant past the timeout, naming the selectors not visible there. -/
lemma waitAllAux_never (vis : Nat → String → Bool) (sels : List String) (T : Nat)
    (hnever : ∀ k, sels.all (vis k) = false) :
    ∀ (n i : Nat), T / 50 + 1 - i ≤ n → i ≤ T / 50 + 1 →
      waitAllAux vis sels T i =
        .error ("Timeout " ++ toString T ++ "ms exceeded. Still missing: [" ++
          String.intercalate ", "
            (sels.filter (fun s => !(vis (T / 50 + 1) s))) ++ "]") := by
  intro n
  induction n with
  | zero =>
    intro i hn hi
    have he : i = T / 50 + 1 := by omega
    subst he
    exact waitAllAux_fail (hnever _) (deadline_instant T)
  | succ n ih =>
    intro i hn hi
    rcases Nat.eq_or_lt_of_le hi with he | hlt
    · rw [he]
      exact waitAllAux_fail (hnever _) (deadline_instant T)
    · have h2 : 50 * i ≤ T := by
        have hd1 := Nat.div_add_mod T 50
        have hd2 : T % 50 < 50 := Nat.mod_lt _ (by norm_num)
        omega
      rw [waitAllAux_cont (hnever i) h2]
      exact ih (i + 1) (by omega) (by omega)

/-! ### C9/C10 helpers: shapes of the dispatcher's results -/

/-- The response invariant of the spec: at most one of `value`/`error` is
populated; `ok = false` forces an error and no value; `ok = true` forbids an
error. -/
def respInvariant (r : Response) : Prop :=
  (r.ok = true → r.error = none) ∧
  (r.ok = false → r.error ≠ none ∧ r.value = none) ∧
  ¬(r.value ≠ none ∧ r.error ≠ none)

lemma inv_ok_empty : respInvariant Response.ok_empty := by
  simp [respInvariant, Response.ok_empty]

lemma inv_ok_value (v : Json) : respInvariant (Response.ok_value v) := by
  simp [respInvariant, Response.ok_value]

lemma inv_err (m : String) : respInvariant (Response.err m) := by
  simp [respInvariant, Response.err]

/-- A `handle_command` result is sound when it is not the `unreachable!()` arm
and any `Ok(response)` it carries satisfies the response invariant. -/
def hresOK : HRes → Prop
  | .resp r => respInvariant r
  | .err _ => True
  | .unreachableHit => False

lemma stopVideo_resp_invariant (vs : VideoState) (fs : StopFs) (r : Response)
    (h : (stopVideo vs fs).result = .ok r) : respInvariant r := by
  unfold stopVideo at h
  repeat' split at h
  all_goals simp_all
  all_goals (first | (rw [← h]; exact inv_ok_empty) | (rw [← h]; exact inv_err _))

lemma handleFirst_sound (st : DState) (eng : Engine) (c : Command) (p : HRes × DState)
    (h : handleFirst st eng c = some p) : hresOK p.1 := by
  cases c <;> simp only [handleFirst] at h
  all_goals try exact Option.noConfusion h
  all_goals
    (injection h with h'
     subst h'
     repeat' split
     all_goals simp [hresOK, inv_ok_empty, inv_ok_value, inv_err])

lemma handleSecond_sound (st : DState) (eng : Engine) (fs : StopFs) (c : Command)
    (hn : handleFirst st eng c = none) : hresOK (handleSecond st eng fs c).1 := by
  cases c <;> simp only [handleFirst] at hn ⊢
  all_goals
    (simp only [handleSecond, unitArm]
     repeat' split
     all_goals
       first
         | (rename_i heq
            exact stopVideo_resp_invariant _ _ _ heq)
         | simp_all [hresOK, inv_ok_empty, inv_ok_value, inv_err])

lemma handle_command_sound (st : DState) (eng : Engine) (fs : StopFs) (c : Command) :
    hresOK (handle_command st eng fs c).1 := by
  unfold handle_command
  rcases hh : handleFirst st eng c with _ | p
  · exact handleSecond_sound st eng fs c hh
  · exact handleFirst_sound st eng c p hh

lemma dispatchReply_invariant (st : DState) (eng : Engine) (fs : StopFs) (c : Command)
    (r : Response) (st' : DState) (h : dispatchReply st eng fs c = (some r, st')) :
    respInvariant r := by
  unfold dispatchReply at h
  split at h
  · obtain ⟨h1, -⟩ := Prod.mk.injEq .. ▸ h
    cases h1
    exact inv_err _
  · have hs := handle_command_sound st eng fs c
    split at h <;> rename_i heq <;> rw [heq] at hs
    · obtain ⟨h1, -⟩ := Prod.mk.injEq .. ▸ h
      cases h1
      exact hs
    · obtain ⟨h1, -⟩ := Prod.mk.injEq .. ▸ h
      cases h1
      exact inv_err _
    · simp at h

/-! ### C6 helpers: facts about the string primitives -/

lemma startsWith_nil_false (p : List Char) (hp : p ≠ []) : startsWithL p [] = false := by
  cases p with
  | nil => exact absurd rfl hp
  | cons c p' => rfl

lemma startsWith_length {p s : List Char} (h : startsWithL p s = true) :
    p.length ≤ s.length := by
  induction p generalizing s with
  | nil => simp
  | cons c p' ih =>
    cases s with
    | nil => simp [startsWithL] at h
    | cons d s' =>
      simp only [startsWithL, Bool.and_eq_true] at h
      simpa using ih h.2

lemma startsWith_append_left (p a z : List Char) (h : p.length ≤ a.length) :
    startsWithL p (a ++ z) = startsWithL p a := by
  induction p generalizing a with
  | nil => rfl
  | cons c p' ih =>
    cases a with
    | nil => simp at h
    | cons b a' =>
      simp only [List.cons_append, startsWithL]
      rw [show a'.append z = a' ++ z from rfl, ih a' (by simpa using h)]

lemma startsWith_append_long {b a z : List Char} (h : startsWithL b (a ++ z) = true)
    (hl : a.length < b.length) :
    ∃ b2, b = a ++ b2 ∧ b2 ≠ [] ∧ startsWithL b2 z = true := by
  induction a generalizing b with
  | nil =>
    refine ⟨b, rfl, ?_, h⟩
    intro hb
    subst hb
    simp at hl
  | cons c a' ih =>
    cases b with
    | nil => simp at hl
    | cons d b' =>
      simp only [List.cons_append, startsWithL, Bool.and_eq_true, decide_eq_true_eq] at h
      obtain ⟨b2, h1, h2, h3⟩ := ih h.2 (by simpa using hl)
      exact ⟨b2, by simp [h.1, h1], h2, h3⟩

lemma startsWith_self_append (p w : List Char) : startsWithL p (p ++ w) = true := by
  induction p with
  | nil => rfl
  | cons c p' ih => simp [startsWithL, ih]

lemma startsWith_mem {p s : List Char} {c : Char} (h : startsWithL p s = true)
    (hc : c ∈ p) : c ∈ s := by
  induction p generalizing s with
  | nil => simp at hc
  | cons d p' ih =>
    cases s with
    | nil => simp [startsWithL] at h
    | cons e s' =>
      simp only [startsWithL, Bool.and_eq_true, decide_eq_true_eq] at h
      rcases List.mem_cons.mp hc with h1 | h1
      · subst h1
        exact h.1 ▸ List.mem_cons_self _ _
      · exact List.mem_cons_of_mem _ (ih h.2 h1)

lemma not_startsWith_append_nl {b e : List Char} (z : List Char)
    (hb : startsWithL b e = false) (hnl : '\n' ∉ b) :
    startsWithL b (e ++ '\n' :: z) = false := by
  by_contra hc
  rw [Bool.not_eq_false] at hc
  rcases le_or_lt b.length e.length with h | h
  · rw [startsWith_append_left _ _ _ h] at hc
    exact absurd hc (by simp [hb])
  · obtain ⟨b2, hb2, hne2, hsw⟩ := startsWith_append_long hc h
    have : '\n' ∈ b2 := by
      cases b2 with
      | nil => exact absurd rfl hne2
      | cons c b2' =>
        simp only [startsWithL, Bool.and_eq_true, decide_eq_true_eq] at hsw
        exact hsw.1 ▸ List.mem_cons_self _ _
    exact hnl (hb2 ▸ List.mem_append_right e this)

lemma not_startsWith_append_bracket {b e : List Char} (z : List Char)
    (hb : startsWithL b e = false) (hbr : '[' ∉ b) (hbe : '[' ∈ e) :
    startsWithL b (e ++ z) = false := by
  by_contra hc
  rw [Bool.not_eq_false] at hc
  rcases le_or_lt b.length e.length with h | h
  · rw [startsWith_append_left _ _ _ h] at hc
    exact absurd hc (by simp [hb])
  · obtain ⟨b2, hb2, -, -⟩ := startsWith_append_long hc h
    exact hbr (hb2 ▸ List.mem_append_left b2 hbe)

/-- Is a `' '` immediately followed by `'\n'` anywhere in the list?  The only
way a `" \n "` stack boundary can occur. -/
def spaceNl : List Char → Bool
  | a :: b :: rest => (decide (' ' = a) && decide ('\n' = b)) || spaceNl (b :: rest)
  | _ => false

lemma spaceNl_of_no_nl {s : List Char} (h : '\n' ∉ s) : spaceNl s = false := by
  induction s with
  | nil => rfl
  | cons a s' ih =>
    cases s' with
    | nil => rfl
    | cons b rest =>
      have hb : ('\n' : Char) ≠ b := fun he => h (by simp [← he])
      simp [spaceNl, ih (fun hm => h (List.mem_cons_of_mem _ hm)), hb]

lemma containsSub_stackSep_false {s : List Char} (h : spaceNl s = false) :
    containsSub pStackSep s = false := by
  induction s with
  | nil => rfl
  | cons a s' ih =>
    have hrec : spaceNl s' = false := by
      cases s' with
      | nil => rfl
      | cons b rest =>
        simp only [spaceNl, Bool.or_eq_false_iff] at h
        exact h.2
    rw [containsSub, Bool.or_eq_false_iff]
    refine ⟨?_, ih hrec⟩
    cases s' with
    | nil => simp [pStackSep, startsWithL]
    | cons b rest =>
      simp only [spaceNl, Bool.or_eq_false_iff, Bool.and_eq_false_iff] at h
      simp only [pStackSep]
      show startsWithL (' ' :: '\n' :: ' ' :: []) (a :: b :: rest) = false
      simp only [startsWithL, Bool.and_eq_false_iff]
      rcases h.1 with h1 | h1
      · exact Or.inl h1
      · exact Or.inr (Or.inl h1)

lemma beforeFirst_eq_self {p s : List Char} (h : containsSub p s = false) :
    beforeFirst p s = s := by
  induction s with
  | nil => rfl
  | cons c cs ih =>
    rw [containsSub, Bool.or_eq_false_iff] at h
    simp [beforeFirst, h.1, ih h.2]

/-- No character of `y` opens the pattern: no occurrence at all. -/
lemma rtail_none_of_head_not_mem (p' : List Char) (c : Char) (y : List Char) (h : c ∉ y) :
    rtail (c :: p') y = none := by
  induction y with
  | nil => rfl
  | cons d y' ih =>
    have hcy : c ∉ y' := fun hm => h (List.mem_cons_of_mem _ hm)
    have hcd : c ≠ d := fun he => h (he ▸ List.mem_cons_self _ _)
    simp [rtail, ih hcy, startsWithL, hcd]

/-- The rightmost occurrence inside the appended tail wins. -/
lemma rtail_append_some {p z : List Char} (x : List Char) {u : List Char}
    (h : rtail p z = some u) : rtail p (x ++ z) = some u := by
  induction x with
  | nil => simpa
  | cons c x' ih => simp [rtail, ih]

/-- With no occurrence inside or opening into the newline-led tail, the last
occurrence is the one in the head part, extended by the tail. -/
lemma rtail_append_map (p x y : List Char) (hnl : '\n' ∉ p) (hp : p ≠ [])
    (hy : rtail p ('\n' :: y) = none) :
    rtail p (x ++ '\n' :: y) = (rtail p x).map (· ++ '\n' :: y) := by
  induction x with
  | nil =>
    have h0 : rtail p [] = none := by
      cases p with
      | nil => exact absurd rfl hp
      | cons c p' => rfl
    rw [List.nil_append, hy, h0]
    rfl
  | cons c x' ih =>
    simp only [List.cons_append, rtail, List.append_eq, ih]
    cases hrx : rtail p x' with
    | some t => rfl
    | none =>
      by_cases hsw : startsWithL p (c :: x') = true
      · have hlen := startsWith_length hsw
        have heq : startsWithL p (c :: (x' ++ '\n' :: y)) = true := by
          rw [← List.cons_append, startsWith_append_left p (c :: x') _ hlen]
          exact hsw
        simp [heq, hsw]
      · have hswf : startsWithL p (c :: x') = false := by simpa using hsw
        have heq : startsWithL p (c :: (x' ++ '\n' :: y)) = false := by
          rw [← List.cons_append]
          exact not_startsWith_append_nl _ hswf hnl
        simp [heq, hswf]

lemma containsSub_false_of_not_mem {p s : List Char} {c : Char} (hc : c ∈ p) (hs : c ∉ s) :
    containsSub p s = false := by
  induction s with
  | nil =>
    cases p with
    | nil => simp at hc
    | cons a p' => rfl
  | cons d s' ih =>
    rw [containsSub, Bool.or_eq_false_iff]
    constructor
    · cases hsw : startsWithL p (d :: s') with
      | false => rfl
      | true => exact absurd (startsWith_mem hsw hc) hs
    · exact ih (fun hm => hs (List.mem_cons_of_mem _ hm))

lemma rtail_self_append (p'' w : List Char) (h1 : '[' ∉ p'') (h2 : '[' ∉ w) :
    rtail ('[' :: p'') (('[' :: p'') ++ w) = some (('[' :: p'') ++ w) := by
  have hrest : rtail ('[' :: p'') (p'' ++ w) = none :=
    rtail_none_of_head_not_mem _ _ _ (by simp [h1, h2])
  have hsw := startsWith_self_append ('[' :: p'') w
  rw [List.cons_append] at hsw ⊢
  simp [rtail, hrest, hsw]

lemma rtail_suffix {p s u : List Char} (h : rtail p s = some u) : ∃ a, s = a ++ u := by
  induction s with
  | nil =>
    cases p with
    | nil =>
      simp only [rtail, startsWithL, if_true] at h
      exact ⟨[], by simp [← Option.some.injEq _ _ |>.mp h]⟩
    | cons c p' => simp [rtail, startsWithL] at h
  | cons c s' ih =>
    rw [rtail] at h
    cases hr : rtail p s' with
    | some t =>
      rw [hr] at h
      injection h with h
      rw [h] at hr
      obtain ⟨a, ha⟩ := ih hr
      exact ⟨c :: a, by simp [ha]⟩
    | none =>
      rw [hr] at h
      have h' : (if startsWithL p (c :: s') = true then some (c :: s') else none) = some u := h
      by_cases hsw : startsWithL p (c :: s') = true
      · rw [if_pos hsw] at h'
        injection h' with h'
        exact ⟨[], by simp [h']⟩
      · rw [if_neg hsw] at h'
        cases h' 

lemma upToIncl_append (c : Char) (x y : List Char) (h : c ∉ x) :
    upToIncl c (x ++ c :: y) = some (x ++ [c]) := by
  induction x with
  | nil => simp [upToIncl]
  | cons d x' ih =>
    have hcd : d ≠ c := fun he => h (he ▸ List.mem_cons_self _ _)
    simp [upToIncl, hcd, ih (fun hm => h (List.mem_cons_of_mem _ hm))]

lemma splitOnChar_not_mem (c : Char) (x : List Char) (h : c ∉ x) :
    splitOnChar c x = [x] := by
  induction x with
  | nil => rfl
  | cons d x' ih =>
    have hcd : d ≠ c := fun he => h (he ▸ List.mem_cons_self _ _)
    simp [splitOnChar, hcd, ih (fun hm => h (List.mem_cons_of_mem _ hm))]

lemma splitOnChar_append (c : Char) (x y : List Char) (h : c ∉ x) :
    splitOnChar c (x ++ c :: y) = x :: splitOnChar c y := by
  induction x with
  | nil => simp [splitOnChar]
  | cons d x' ih =>
    have hcd : d ≠ c := fun he => h (he ▸ List.mem_cons_self _ _)
    simp [splitOnChar, hcd, ih (fun hm => h (List.mem_cons_of_mem _ hm))]

lemma endsWith_not_mem (c : Char) (s : List Char) (h : c ∉ s) : endsWithL [c] s = false := by
  show startsWithL [c] s.reverse = false
  cases hr : s.reverse with
  | nil => rfl
  | cons d t =>
    have hd : d ∈ s := by
      rw [← List.mem_reverse, hr]
      exact List.mem_cons_self _ _
    have hcd : c ≠ d := fun he => h (he ▸ hd)
    simp [startsWithL, hcd]

lemma endsWith_append_right (c : Char) (x y : List Char) (hy : y ≠ []) :
    endsWithL [c] (x ++ y) = endsWithL [c] y := by
  show startsWithL [c] (x ++ y).reverse = startsWithL [c] y.reverse
  rw [List.reverse_append]
  exact startsWith_append_left [c] y.reverse x.reverse
    (by simpa using Nat.one_le_iff_ne_zero.mpr (by simpa using hy))

lemma endsWith_last_self (x : List Char) (c : Char) : endsWithL [c] (x ++ [c]) = true := by
  rw [endsWith_append_right c x [c] (by simp)]
  simp [endsWithL, startsWithL]

lemma trimEnd_append_last (x : List Char) (c : Char) (h : c.isWhitespace = false) :
    trimEndL (x ++ [c]) = x ++ [c] := by
  show ((x ++ [c]).reverse.dropWhile Char.isWhitespace).reverse = x ++ [c]
  rw [List.reverse_append]
  simp [List.dropWhile, h]

lemma trimEnd_fixed_last {s : List Char} {c : Char} (h : trimEndL s = s)
    (hl : s.getLast? = some c) : c.isWhitespace = false := by
  have hrev : s.reverse.head? = some c := by
    rw [List.head?_reverse]
    exact hl
  cases hr : s.reverse with
  | nil => rw [hr] at hrev; cases hrev
  | cons d t =>
    rw [hr] at hrev
    injection hrev with hdc
    subst hdc
    by_contra hw
    rw [Bool.not_eq_false] at hw
    have htrim : trimEndL s = (t.dropWhile Char.isWhitespace).reverse := by
      show (s.reverse.dropWhile Char.isWhitespace).reverse = _
      rw [hr]
      simp [List.dropWhile, hw]
    have hlen1 : (t.dropWhile Char.isWhitespace).length ≤ t.length :=
      (List.dropWhile_sublist _).length_le
    have hlen2 : s.length = t.length + 1 := by
      have := congrArg List.length hr
      simpa using this
    have := congrArg List.length (htrim ▸ h)
    simp at this
    omega

lemma stripPfx_self (p w : List Char) : stripPfx p (p ++ w) = some w := by
  simp [stripPfx, startsWith_self_append, List.drop_left]

lemma stripPfx_neg {p s : List Char} (h : startsWithL p s = false) : stripPfx p s = none := by
  simp [stripPfx, h]

lemma stripSfx_single (c : Char) (x : List Char) : stripSfx [c] (x ++ [c]) = some x := by
  simp [stripSfx, List.reverse_append, stripPfx, startsWithL]

lemma spaceNl_append (x y : List Char) (hx : spaceNl x = false) (hy : spaceNl y = false)
    (hb : ∀ cx cy, x.getLast? = some cx → y.head? = some cy → ¬(cx = ' ' ∧ cy = '\n')) :
    spaceNl (x ++ y) = false := by
  induction x with
  | nil => simpa
  | cons a x' ih =>
    cases x' with
    | nil =>
      cases y with
      | nil => rfl
      | cons b rest =>
        have hab := hb a b rfl rfl
        have : ¬((' ' = a) ∧ ('\n' = b)) := fun ⟨h1, h2⟩ => hab ⟨h1.symm, h2.symm⟩
        simp only [List.cons_append, List.nil_append, spaceNl, Bool.or_eq_false_iff]
        exact ⟨by simpa using this, hy⟩
    | cons d x'' =>
      have hx' : spaceNl (d :: x'') = false := by
        simp only [spaceNl, Bool.or_eq_false_iff] at hx
        exact hx.2
      have hhead : ¬((' ' = a) ∧ ('\n' = d)) := by
        simp only [spaceNl, Bool.or_eq_false_iff] at hx
        have := hx.1
        simpa using this
      have hb' : ∀ cx cy, (d :: x'').getLast? = some cx → y.head? = some cy →
          ¬(cx = ' ' ∧ cy = '\n') := by
        intro cx cy h1 h2
        exact hb cx cy (by rw [List.getLast?_cons_cons]; exact h1) h2
      have := ih hx' hb'
      simp only [List.cons_append, spaceNl, Bool.or_eq_false_iff] at this ⊢
      constructor
      · simpa using hhead
      · exact this

/-- The six start patterns the normalizer reacts to: the five strippable
prefixes and the stack-frame marker. -/
def bannedFree (e : List Char) : Prop :=
  startsWithL "Protocol error: ".data e = false ∧
  startsWithL "Protocol error ".data e = false ∧
  startsWithL ['('] e = false ∧
  startsWithL "Error: ".data e = false ∧
  startsWithL "strict mode violation: ".data e = false ∧
  startsWithL pAtFrame e = false

instance (e : List Char) : Decidable (bannedFree e) := by
  unfold bannedFree
  infer_instance

lemma linesL_no_nl (s : List Char) (h : '\n' ∉ s) :
    linesL s = if s.isEmpty then [] else [s] := by
  by_cases hs : s.isEmpty
  · simp [linesL, hs]
  · simp [linesL, hs, endsWith_not_mem _ _ h, splitOnChar_not_mem _ _ h]

lemma stripStack_single (s : List Char) (hnl : '\n' ∉ s)
    (hat : startsWithL pAtFrame s = false) : stripStack s = s := by
  unfold stripStack
  rw [beforeFirst_eq_self (containsSub_stackSep_false (spaceNl_of_no_nl hnl))]
  rw [linesL_no_nl s hnl]
  by_cases he : s.isEmpty
  · rw [if_pos he]
    simp [joinLines, List.isEmpty_iff.mp he]
  · rw [if_neg he]
    simp [List.takeWhile_cons, hat, joinLines]

lemma stripPrefixes_banned (s : List Char) (hb : bannedFree s) : stripPrefixes s = s := by
  obtain ⟨h1, h2, h3, h4, h5, h6⟩ := hb
  simp [stripPrefixes, stripPfx_neg h1, stripPfx_neg h2, h3, stripPfx_neg h4, stripPfx_neg h5]

lemma firstLineOf_single (s : List Char) (hnl : '\n' ∉ s) (hte : trimEndL s = s) :
    firstLineOf s = s := by
  unfold firstLineOf
  rw [linesL_no_nl s hnl]
  by_cases he : s.isEmpty
  · rw [if_pos he]
    simpa [headD] using hte
  · rw [if_neg he]
    simpa [headD] using hte

lemma selOf_nil : selOf [] = "SELECTOR".data := by
  simp [selOf, stripPfx_neg (startsWith_nil_false pSelector (by decide))]

lemma selOf_ann (t : List Char) : selOf (pSelector ++ (t ++ [']'])) = t := by
  simp [selOf, stripPfx_self, stripSfx_single]

/-- `clean_error` on a single-line, right-trimmed message with no strippable
start and no selector annotation: the identity, except for the possible
multi-element hint. -/
lemma cleanErrorL_no_ann (e : List Char) (hnl : '\n' ∉ e) (hte : trimEndL e = e)
    (hb : bannedFree e) (hsel : rtail pSelector e = none) :
    cleanErrorL e = if trigger e then e ++ hintA ++ "SELECTOR".data ++ hintB else e := by
  have hsfx : sfxOf e = [] := by simp [sfxOf, hsel]
  unfold cleanErrorL
  rw [hsfx, stripStack_single e hnl hb.2.2.2.2.2, stripPrefixes_banned e hb,
    firstLineOf_single e hnl hte]
  simp [selOf_nil]

/-- `clean_error` on a single-line, right-trimmed message with no strippable
start whose last selector annotation is closed by a `']'`: re-append the
annotation unless the line already ends in `']'`, plus the possible hint. -/
lemma cleanErrorL_with_ann (e t r : List Char) (hnl : '\n' ∉ e) (hte : trimEndL e = e)
    (hb : bannedFree e) (ht2 : ']' ∉ t)
    (hsel : rtail pSelector e = some (pSelector ++ (t ++ ']' :: r))) :
    cleanErrorL e =
      (if trigger (if endsWithL [']'] e then e else e ++ ' ' :: (pSelector ++ (t ++ [']']))) then
        (if endsWithL [']'] e then e else e ++ ' ' :: (pSelector ++ (t ++ [']']))) ++
          hintA ++ t ++ hintB
       else (if endsWithL [']'] e then e else e ++ ' ' :: (pSelector ++ (t ++ [']'])))) := by
  have hnotin : ']' ∉ pSelector ++ t := by
    simp only [List.mem_append]
    rintro (h | h)
    · exact absurd h (by decide)
    · exact ht2 h
  have hup : upToIncl ']' (pSelector ++ (t ++ ']' :: r)) = some (pSelector ++ (t ++ [']'])) := by
    have := upToIncl_append ']' (pSelector ++ t) r hnotin
    simpa [List.append_assoc] using this
  have hsfx : sfxOf e = pSelector ++ (t ++ [']']) := by
    simp [sfxOf, hsel, hup]
  have hempty : (pSelector ++ (t ++ [']'])).isEmpty = false := by
    have : pSelector ++ (t ++ [']']) ≠ [] := by
      intro hcontra
      have := congrArg List.length hcontra
      simp [pSelector] at this
    simp [List.isEmpty_iff, this]
  unfold cleanErrorL
  rw [hsfx, stripStack_single e hnl hb.2.2.2.2.2, stripPrefixes_banned e hb,
    firstLineOf_single e hnl hte]
  simp only [selOf_ann, hempty, Bool.false_or]

/-- The hint's middle line. -/
def hintLineA : List Char := "Hint: use '>> nth=0' to select the first match, e.g.:".data

/-- The hint's command-template line up to the opening quote. -/
def hintLineB : List Char := "  plwr <command> \"".data

lemma hintA_eq : hintA = '\n' :: '\n' :: (hintLineA ++ '\n' :: hintLineB) := by decide

/-- The hinted output in right-nested form. -/
lemma hinted_assoc (g sel : List Char) :
    g ++ hintA ++ sel ++ hintB =
      g ++ '\n' :: ('\n' :: (hintLineA ++ '\n' :: (hintLineB ++ (sel ++ hintB)))) := by
  rw [hintA_eq]
  simp [List.append_assoc]

lemma spaceNl_hinted (g sel : List Char) (hg_nl : '\n' ∉ g) (hg_tr : trimEndL g = g)
    (hsel_nl : '\n' ∉ sel) :
    spaceNl (g ++ hintA ++ sel ++ hintB) = false := by
  rw [hinted_assoc]
  apply spaceNl_append
  · exact spaceNl_of_no_nl hg_nl
  · show spaceNl ('\n' :: '\n' :: (hintLineA ++ '\n' :: (hintLineB ++ (sel ++ hintB)))) = false
    rw [show ('\n' :: '\n' :: (hintLineA ++ '\n' :: (hintLineB ++ (sel ++ hintB)))) =
      ('\n' :: '\n' :: hintLineA) ++ ('\n' :: (hintLineB ++ (sel ++ hintB))) by simp]
    apply spaceNl_append
    · decide
    · rw [show ('\n' :: (hintLineB ++ (sel ++ hintB))) =
        ('\n' :: hintLineB) ++ (sel ++ hintB) by simp]
      apply spaceNl_append
      · decide
      · apply spaceNl_append
        · exact spaceNl_of_no_nl hsel_nl
        · decide
        · intro cx cy h1 h2 hc
          have : hintB.head? = some ' ' := by decide
          rw [this] at h2
          injection h2 with h2
          exact absurd (h2 ▸ hc.2) (by decide)
      · intro cx cy h1 h2 hc
        have : ('\n' :: hintLineB).getLast? = some '\"' := by decide
        rw [this] at h1
        injection h1 with h1
        exact absurd (h1 ▸ hc.1) (by decide)
    · intro cx cy h1 h2 hc
      have : ('\n' :: '\n' :: hintLineA).getLast? = some ':' := by decide
      rw [this] at h1
      injection h1 with h1
      exact absurd (h1 ▸ hc.1) (by decide)
  · intro cx cy h1 h2 hc
    have hw := trimEnd_fixed_last hg_tr h1
    rw [hc.1] at hw
    exact absurd hw (by decide)

lemma splitOnChar_hinted (g sel : List Char) (hg_nl : '\n' ∉ g) (hsel_nl : '\n' ∉ sel) :
    splitOnChar '\n' (g ++ hintA ++ sel ++ hintB) =
      [g, [], hintLineA, hintLineB ++ (sel ++ hintB)] := by
  rw [hinted_assoc, splitOnChar_append _ _ _ hg_nl]
  congr 1
  rw [show splitOnChar '\n' ('\n' :: (hintLineA ++ '\n' :: (hintLineB ++ (sel ++ hintB)))) =
      [] :: splitOnChar '\n' (hintLineA ++ '\n' :: (hintLineB ++ (sel ++ hintB))) by
    simp [splitOnChar]]
  congr 1
  rw [splitOnChar_append _ _ _ (by decide)]
  congr 1
  apply splitOnChar_not_mem
  simp only [List.mem_append]
  rintro (h | h | h)
  · exact absurd h (by decide)
  · exact hsel_nl h
  · exact absurd h (by decide)

lemma linesL_hinted (g sel : List Char) (hg_nl : '\n' ∉ g) (hsel_nl : '\n' ∉ sel) :
    linesL (g ++ hintA ++ sel ++ hintB) =
      [g, [], hintLineA, hintLineB ++ (sel ++ hintB)] := by
  have hne : (g ++ hintA ++ sel ++ hintB).isEmpty = false := by
    rw [hinted_assoc]
    cases g <;> rfl
  have hend : endsWithL ['\n'] (g ++ hintA ++ sel ++ hintB) = false := by
    rw [show g ++ hintA ++ sel ++ hintB = (g ++ hintA ++ sel) ++ hintB by simp,
      endsWith_append_right _ _ _ (by decide)]
    decide
  unfold linesL
  rw [hne, hend, splitOnChar_hinted g sel hg_nl hsel_nl]
  rfl

lemma stripStack_hinted (g sel : List Char) (hg_nl : '\n' ∉ g) (hg_tr : trimEndL g = g)
    (hat : startsWithL pAtFrame g = false) (hsel_nl : '\n' ∉ sel) :
    stripStack (g ++ hintA ++ sel ++ hintB) = g ++ hintA ++ sel ++ hintB := by
  unfold stripStack
  rw [beforeFirst_eq_self (containsSub_stackSep_false (spaceNl_hinted g sel hg_nl hg_tr hsel_nl))]
  rw [linesL_hinted g sel hg_nl hsel_nl]
  have h4 : startsWithL pAtFrame (hintLineB ++ (sel ++ hintB)) = false := by
    rw [startsWith_append_left _ _ _ (by decide)]
    decide
  simp only [List.takeWhile_cons, hat, h4, Bool.not_false, if_true,
    show startsWithL pAtFrame ([] : List Char) = false by decide,
    show startsWithL pAtFrame hintLineA = false by decide, List.takeWhile_nil]
  rw [hinted_assoc]
  simp [joinLines]

lemma bannedFree_hinted (g sel : List Char) (hg_b : bannedFree g) :
    bannedFree (g ++ hintA ++ sel ++ hintB) := by
  obtain ⟨h1, h2, h3, h4, h5, h6⟩ := hg_b
  refine ⟨?_, ?_, ?_, ?_, ?_, ?_⟩ <;>
    (rw [hinted_assoc]; exact not_startsWith_append_nl _ ‹_› (by decide))

lemma firstLineOf_hinted (g sel : List Char) (hg_nl : '\n' ∉ g) (hg_tr : trimEndL g = g)
    (hsel_nl : '\n' ∉ sel) :
    firstLineOf (g ++ hintA ++ sel ++ hintB) = g := by
  unfold firstLineOf
  rw [linesL_hinted g sel hg_nl hsel_nl]
  simpa [headD] using hg_tr

lemma rtail_hinted (g sel : List Char) (hsel_br : '[' ∉ sel) :
    rtail pSelector (g ++ hintA ++ sel ++ hintB) =
      (rtail pSelector g).map
        (· ++ '\n' :: ('\n' :: (hintLineA ++ '\n' :: (hintLineB ++ (sel ++ hintB))))) := by
  rw [hinted_assoc]
  apply rtail_append_map
  · decide
  · decide
  · rw [show pSelector = '[' :: "selector: ".data from rfl]
    apply rtail_none_of_head_not_mem
    intro h
    simp only [List.mem_cons, List.mem_append] at h
    rcases h with h | h | h | h | h | h | h <;>
      first
        | exact absurd h (by decide)
        | exact hsel_br h

/-- A hinted output — `cleaned ++ hint(sel)` as produced by a first
normalization pass — is a fixed point of `clean_error`. -/
lemma cleanErrorL_hinted (g sel : List Char)
    (hg_nl : '\n' ∉ g) (hg_tr : trimEndL g = g) (hg_b : bannedFree g)
    (hsel_nl : '\n' ∉ sel) (hsel_br : '[' ∉ sel)
    (htrig : trigger g = true)
    (hcase :
      (rtail pSelector g = none ∧ sel = "SELECTOR".data) ∨
      (∃ t r', rtail pSelector g = some (pSelector ++ (t ++ ']' :: r')) ∧ sel = t ∧
        ']' ∉ t ∧ endsWithL [']'] g = true)) :
    cleanErrorL (g ++ hintA ++ sel ++ hintB) = g ++ hintA ++ sel ++ hintB := by
  have hstack := stripStack_hinted g sel hg_nl hg_tr hg_b.2.2.2.2.2 hsel_nl
  have hbf := bannedFree_hinted g sel hg_b
  have hpref := stripPrefixes_banned _ hbf
  have hfl := firstLineOf_hinted g sel hg_nl hg_tr hsel_nl
  have hrt := rtail_hinted g sel hsel_br
  unfold cleanErrorL
  rw [hstack, hpref, hfl]
  rcases hcase with ⟨hnone, hselS⟩ | ⟨t, r', hsome, hselt, ht2, hends⟩
  · have hsfx : sfxOf (g ++ hintA ++ sel ++ hintB) = [] := by
      unfold sfxOf
      rw [hrt, hnone]
      rfl
    rw [hsfx]
    subst hselS
    simp [selOf_nil, htrig]
  · subst hselt
    have hnotin : ']' ∉ pSelector ++ sel := by
      simp only [List.mem_append]
      rintro (h | h)
      · exact absurd h (by decide)
      · exact ht2 h
    have hsfx : sfxOf (g ++ hintA ++ sel ++ hintB) = pSelector ++ (sel ++ [']']) := by
      have hre : (pSelector ++ (sel ++ ']' :: r')) ++
          ('\n' :: ('\n' :: (hintLineA ++ '\n' :: (hintLineB ++ (sel ++ hintB))))) =
          (pSelector ++ sel) ++ ']' ::
            (r' ++ '\n' :: ('\n' :: (hintLineA ++ '\n' :: (hintLineB ++ (sel ++ hintB))))) := by
        simp [List.append_assoc]
      have hup := upToIncl_append ']' (pSelector ++ sel)
        (r' ++ '\n' :: ('\n' :: (hintLineA ++ '\n' :: (hintLineB ++ (sel ++ hintB))))) hnotin
      have hstep : sfxOf (g ++ hintA ++ sel ++ hintB) =
          (upToIncl ']' ((pSelector ++ (sel ++ ']' :: r')) ++
            ('\n' :: ('\n' :: (hintLineA ++ '\n' :: (hintLineB ++ (sel ++ hintB))))))).getD [] := by
        unfold sfxOf
        rw [hrt, hsome]
        rfl
      rw [hstep, hre, hup]
      simp [List.append_assoc]
    rw [hsfx]
    have hempty : (pSelector ++ (sel ++ [']'])).isEmpty = false := by
      have hne : pSelector ++ (sel ++ [']']) ≠ [] := by
        intro hcontra
        have := congrArg List.length hcontra
        simp [pSelector] at this
      simp [List.isEmpty_iff, hne]
    simp [selOf_ann, htrig, hempty, hends]

/-- C6 amended: on single-line, right-trimmed messages that do not begin with
a strippable prefix or stack marker, and whose last selector annotation (if
any) is well-formed (closed by `']'`, bracket-free text), `clean_error` is
idempotent — including when the message triggers the multi-element hint. -/
theorem c6_clean_error_idempotent :
    ∀ (e : List Char), '\n' ∉ e → trimEndL e = e → bannedFree e →
      ((rtail pSelector e = none) ∨
        (∃ t r, '[' ∉ t ∧ ']' ∉ t ∧ '\n' ∉ t ∧
          rtail pSelector e = some (pSelector ++ (t ++ ']' :: r)))) →
      cleanErrorL (cleanErrorL e) = cleanErrorL e := by
  intro e hnl htr hb hcase
  rcases hcase with hnone | ⟨t, r, ht1, ht2, ht3, hsome⟩
  · rw [cleanErrorL_no_ann e hnl htr hb hnone]
    by_cases htrig : trigger e = true
    · rw [if_pos htrig]
      exact cleanErrorL_hinted e "SELECTOR".data hnl htr hb (by decide) (by decide) htrig
        (Or.inl ⟨hnone, rfl⟩)
    · rw [if_neg htrig, cleanErrorL_no_ann e hnl htr hb hnone, if_neg htrig]
  · have hchar := cleanErrorL_with_ann e t r hnl htr hb ht2 hsome
    by_cases hE : endsWithL [']'] e = true
    · rw [hchar, if_pos hE]
      by_cases htrig : trigger e = true
      · rw [if_pos htrig]
        exact cleanErrorL_hinted e t hnl htr hb ht3 ht1 htrig
          (Or.inr ⟨t, r, hsome, rfl, ht2, hE⟩)
      · rw [if_neg htrig, hchar, if_pos hE, if_neg htrig]
    · have hEf : endsWithL [']'] e = false := by simpa using hE
      rw [hchar, if_neg hE]
      have hbr_e : '[' ∈ e := by
        obtain ⟨a, ha⟩ := rtail_suffix hsome
        rw [ha]
        exact List.mem_append_right a (List.mem_append_left _ (by decide))
      have hcln_nl : '\n' ∉ e ++ ' ' :: (pSelector ++ (t ++ [']'])) := by
        simp [List.mem_append, List.mem_cons, hnl, ht3,
          show ('\n' : Char) ∉ pSelector from by decide]
      have hcln_tr : trimEndL (e ++ ' ' :: (pSelector ++ (t ++ [']']))) =
          e ++ ' ' :: (pSelector ++ (t ++ [']'])) := by
        rw [show e ++ ' ' :: (pSelector ++ (t ++ [']'])) =
          (e ++ ' ' :: (pSelector ++ t)) ++ [']'] by simp]
        rw [trimEnd_append_last _ _ (by decide)]
      have hcln_b : bannedFree (e ++ ' ' :: (pSelector ++ (t ++ [']']))) := by
        obtain ⟨h1, h2, h3, h4, h5, h6⟩ := hb
        exact ⟨not_startsWith_append_bracket _ h1 (by decide) hbr_e,
          not_startsWith_append_bracket _ h2 (by decide) hbr_e,
          not_startsWith_append_bracket _ h3 (by decide) hbr_e,
          not_startsWith_append_bracket _ h4 (by decide) hbr_e,
          not_startsWith_append_bracket _ h5 (by decide) hbr_e,
          not_startsWith_append_bracket _ h6 (by decide) hbr_e⟩
      have hcln_rt : rtail pSelector (e ++ ' ' :: (pSelector ++ (t ++ [']']))) =
          some (pSelector ++ (t ++ ']' :: [])) := by
        apply rtail_append_some
        have hself := rtail_self_append "selector: ".data (t ++ [']'])
          (by decide)
          (by simp only [List.mem_append]
              rintro (h | h)
              · exact ht1 h
              · exact absurd h (by decide))
        rw [show ('[' :: "selector: ".data) = pSelector from rfl] at hself
        show rtail pSelector (' ' :: (pSelector ++ (t ++ [']']))) = _
        rw [rtail, hself]
      have hcln_ends : endsWithL [']'] (e ++ ' ' :: (pSelector ++ (t ++ [']']))) = true := by
        rw [show e ++ ' ' :: (pSelector ++ (t ++ [']'])) =
          (e ++ ' ' :: (pSelector ++ t)) ++ [']'] by simp]
        exact endsWith_last_self _ _
      by_cases htrig2 : trigger (e ++ ' ' :: (pSelector ++ (t ++ [']']))) = true
      · rw [if_pos htrig2]
        exact cleanErrorL_hinted _ t hcln_nl hcln_tr hcln_b ht3 ht1 htrig2
          (Or.inr ⟨t, [], hcln_rt, rfl, ht2, hcln_ends⟩)
      · rw [if_neg htrig2]
        have hchar2 := cleanErrorL_with_ann _ t [] hcln_nl hcln_tr hcln_b ht2 hcln_rt
        rw [hchar2, if_pos hcln_ends, if_neg htrig2]

/-! ## Claim theorems -/

set_option maxHeartbeats 1000000 in
/-- C8: For every `Command` variant value (including variants with optional
fields left absent, such as `Screenshot`/`Tree` with `selector = None`),
serializing to the wire frame and deserializing yields a command equal
field-for-field to the original. -/
theorem c8_command_roundtrip : ∀ c : Command, decodeCommand (encodeCommand c) = some c := by
  intro c
  cases c <;> try rfl
  case screenshot sel p t => cases sel <;> rfl
  case tree sel t => cases sel <;> rfl
  case inputFiles s ps t =>
    calc decodeCommand (encodeCommand (.inputFiles s ps t))
        = Option.bind (decodeStrs (ps.map Json.str))
            (fun ps' => some (Command.inputFiles s ps' t)) := rfl
      _ = some (.inputFiles s ps t) := by rw [decodeStrs_map]; rfl
  case select s vs bl t =>
    calc decodeCommand (encodeCommand (.select s vs bl t))
        = Option.bind (decodeStrs (vs.map Json.str))
            (fun vs' => some (Command.select s vs' bl t)) := rfl
      _ = some (.select s vs bl t) := by rw [decodeStrs_map]; rfl

/-- C1: `requires_page(c)` is false exactly for the commands that can run
before any page exists (`Open`, `Stop`, `Header`, `HeaderClear`, `Viewport`),
and every command with `requires_page = true`, dispatched against a daemon
whose `page_opened` flag is false, is answered with the fixed "No page open"
error before `handle_command` runs — uniformly in the engine and filesystem
oracles, so the automation engine is never reached. -/
theorem c1_requires_page_gate :
    (∀ c : Command, c.requires_page = false ↔
      ((∃ u, c = .open_ u) ∨ c = .stop ∨ (∃ n v, c = .header n v) ∨
        c = .headerClear ∨ (∃ w h, c = .viewport w h))) ∧
    (∀ (c : Command) (st : DState) (eng : Engine) (fs : StopFs),
      st.page_opened = false → c.requires_page = true →
      dispatchReply st eng fs c =
        (some (Response.err "No page open. Use 'plwr open <url>' first."), st)) := by
  constructor
  · intro c; cases c <;> simp [Command.requires_page]
  · intro c st eng fs h1 h2
    simp [dispatchReply, h1, h2]

/-- Witness for C1: `reload` against a daemon with no page open is rejected
with the fixed error. -/
theorem c1_requires_page_gate_witness :
    Command.requires_page .reload = true ∧
    dispatchReply stClosed testEngine testFs .reload =
      (some (Response.err "No page open. Use 'plwr open <url>' first."), stClosed) :=
  ⟨rfl, c1_requires_page_gate.2 .reload stClosed testEngine testFs rfl rfl⟩

/-- C2 counterexample: when the connection fails, `send` performs no daemon
spawn at all and only the one connection attempt — it fails at once with the
fixed "No session running" error instead of bootstrapping and retrying. -/
theorem c2_counterexample :
    (send false (.ok Response.ok_empty)).spawns = 0 ∧
    (send false (.ok Response.ok_empty)).connectAttempts = 1 ∧
    (send false (.ok Response.ok_empty)).result =
      .error "No session running. Use 'plwr start' first." ∧
    ¬(1 ≤ (send false (.ok Response.ok_empty)).spawns) := by
  refine ⟨rfl, rfl, rfl, ?_⟩
  simp [send]

/-- C2 amended: on connection failure `send` is fatal immediately — one
connection attempt, zero spawns, the fixed "No session running" error; on
connection success it performs the single exchange.  The bootstrap sequence is
reachable only through `ensure_started`/`start_daemon` (the `start` command),
never from `send`. -/
theorem c2_send_no_bootstrap :
    ∀ exchange : Except String Response,
      send false exchange =
        { connectAttempts := 1, spawns := 0,
          result := .error "No session running. Use 'plwr start' first." } ∧
      send true exchange = { connectAttempts := 1, spawns := 0, result := exchange } :=
  fun _ => ⟨rfl, rfl⟩

/-- C3 counterexample: `ensure_started` with an existing socket file reports
success with zero connection attempts — the file's existence alone is taken
as liveness (a stale file passes). -/
theorem c3_counterexample :
    ensure_started true .ready =
      { connectAttempts := 0, spawned := false, result := some (.ok ()) } ∧
    ¬(1 ≤ (ensure_started true .ready).connectAttempts) := by
  refine ⟨rfl, ?_⟩
  simp [ensure_started]

/-- C3 amended: `send` and `send_if_running` always validate liveness with an
actual connection attempt, but `ensure_started` does not — when the socket
file exists it returns success with no connection attempt at all (stale files
are only cleaned up by `start_daemon` on a later start). -/
theorem c3_liveness_checks :
    (∀ (b : Bool) (ex : Except String Response), (send b ex).connectAttempts = 1) ∧
    (∀ (b : Bool) (ex : Except String Response), (send_if_running b ex).connectAttempts = 1) ∧
    (∀ boot, ensure_started true boot =
      { connectAttempts := 0, spawned := false, result := some (.ok ()) }) := by
  refine ⟨?_, ?_, fun _ => rfl⟩ <;> (intro b ex; cases b <;> rfl)

/-- C5 counterexample: a readiness channel that stays open and silent makes
the bootstrap read loop block forever — it is not bounded by the 30-second
deadline (no kill, no timeout error). -/
theorem c5_counterexample :
    startDaemonLoop [] false = .blockedForever ∧
    BootOutcome.blockedForever ≠ .timedOutKilled := ⟨rfl, by decide⟩

/-- C5 amended: the 30-second deadline is enforced only when a line is
received — any line arriving after the deadline makes the spawner kill the
child and fail with the timeout error; but with no line at all the loop either
blocks forever (channel stays open) or fails with "exited unexpectedly"
(channel closes), so the wall clock alone never bounds the wait. -/
theorem c5_deadline_on_line_only :
    (∀ (t : Nat) (l : Except String String) rest closes,
      30000 < t → startDaemonLoop ((t, l) :: rest) closes = .timedOutKilled) ∧
    startDaemonLoop [] false = .blockedForever ∧
    startDaemonLoop [] true = .exitedUnexpectedly := by
  refine ⟨?_, rfl, rfl⟩
  intro t l rest closes h
  simp [startDaemonLoop, h]

/-- Witness for C5 amended: a first line arriving at 30001ms is answered by
kill-and-timeout. -/
theorem c5_deadline_on_line_only_witness :
    startDaemonLoop [(30001, .ok "starting")] true = .timedOutKilled :=
  c5_deadline_on_line_only.1 30001 (.ok "starting") [] true (by norm_num)

/-- C4 counterexample: with a raw capture present, an output path not ending
in `.webm`, and ffmpeg exiting non-zero, the daemon does return the error
naming the transcoder's exit status — but it removes the temporary capture
directory (and the raw file inside) before returning, not only on success. -/
theorem c4_counterexample :
    (stopVideo vsMp4 ffmpegFailFs).result =
      .ok (Response.err "ffmpeg exited with exit status: 1") ∧
    (stopVideo vsMp4 ffmpegFailFs).tempRemoved = true ∧
    (stopVideo vsMp4 ffmpegFailFs).ffmpegInvoked = true :=
  ⟨rfl, rfl, rfl⟩

/-- C4 amended: when the output path does not end in `.webm` the transcoder is
invoked, a non-zero exit yields the error response naming the exit status, and
the temporary capture directory (with the raw file) is removed in both the
success and the failure case. -/
theorem c4_transcode_cleanup :
    ∀ (vs : VideoState) (fs : StopFs) (raw : String) (success : Bool) (disp : String),
      fs.getContext = .ok () → fs.closePage = .ok () → fs.closeContext = .ok () →
      fs.readDir = .ok (some raw) →
      endsWithL ".webm".data vs.output_path.data = false →
      fs.ffmpeg = .ok (success, disp) →
      stopVideo vs fs =
        if success then
          { result := .ok Response.ok_empty, tempRemoved := true, ffmpegInvoked := true }
        else
          { result := .ok (Response.err ("ffmpeg exited with " ++ disp)),
            tempRemoved := true, ffmpegInvoked := true } := by
  intro vs fs raw success disp h1 h2 h3 h4 h5 h6
  simp [stopVideo, h1, h2, h3, h4, h5, h6]
  cases success <;> simp

/-- Witness for C4 amended at the failing-transcoder oracle. -/
theorem c4_transcode_cleanup_witness :
    stopVideo vsMp4 ffmpegFailFs =
      { result := .ok (Response.err "ffmpeg exited with exit status: 1"),
        tempRemoved := true, ffmpegInvoked := true } := by
  simpa using
    c4_transcode_cleanup vsMp4 ffmpegFailFs "video.webm" false "exit status: 1"
      rfl rfl rfl rfl (by decide) rfl

/-- C7: `wait_all ["a","b"]` with timeout `T` succeeds iff both selectors are
visible at one and the same polled instant (the loop polls instants
`0 … T/50 + 1`, the last being the poll on which the deadline is seen to have
expired); and when (visibility being monotone) "a" became visible in time but
"b" never does, the timeout error names exactly "b" as still missing and not
"a". -/
theorem c7_wait_all :
    (∀ (vis : Nat → String → Bool) (T : Nat),
      (∃ r, wait_all vis ["a", "b"] T = .ok r) ↔
        (∃ i, i ≤ T / 50 + 1 ∧ vis i "a" = true ∧ vis i "b" = true)) ∧
    (∀ (vis : Nat → String → Bool) (T : Nat),
      (∀ i j s, i ≤ j → vis i s = true → vis j s = true) →
      (∀ i, vis i "b" = false) →
      (∃ i, i ≤ T / 50 + 1 ∧ vis i "a" = true) →
      wait_all vis ["a", "b"] T =
        .error ("Timeout " ++ toString T ++ "ms exceeded. Still missing: [b]")) := by
  constructor
  · intro vis T
    constructor
    · rintro ⟨r, h⟩
      obtain ⟨j, hj0, hall, hmin⟩ :=
        waitAllAux_ok_inv vis ["a", "b"] T (T / 50 + 1) 0 r (by omega) h
      simp only [List.all_cons, List.all_nil, Bool.and_true, Bool.and_eq_true] at hall
      refine ⟨j, ?_, hall.1, hall.2⟩
      rcases Nat.eq_zero_or_pos j with h0 | hpos
      · omega
      · have hk := (hmin (j - 1) (by omega) (by omega)).2
        have := le_div50 hk
        omega
    · rintro ⟨i, hi, ha, hb⟩
      have hP : ∃ k, List.all ["a", "b"] (vis k) = true := ⟨i, by simp [ha, hb]⟩
      refine ⟨Response.ok_empty,
        waitAllAux_ok_of vis ["a", "b"] T (Nat.find hP) 0 (Nat.find hP) (by omega)
          (Nat.zero_le _) ?_ (Nat.find_spec hP) (fun k hk1 hk2 => ?_)⟩
      · have : Nat.find hP ≤ i := Nat.find_le (by simp [ha, hb])
        omega
      · have := Nat.find_min hP hk2
        simpa using this
  · intro vis T hmono hb hex
    obtain ⟨i0, hi0, ha0⟩ := hex
    have hnever : ∀ k, List.all ["a", "b"] (vis k) = false := fun k => by simp [hb k]
    have hrun := waitAllAux_never vis ["a", "b"] T hnever (T / 50 + 1) 0 (by omega) (by omega)
    have hav : vis (T / 50 + 1) "a" = true := hmono i0 (T / 50 + 1) "a" hi0 ha0
    rw [wait_all, hrun]
    have hone : String.intercalate ", " ["b"] = "b" := rfl
    simp only [List.filter, hav, hb, Bool.not_true, Bool.not_false, hone]
    congr 1
    apply String.ext
    simp [String.data_append]

/-- A visibility oracle where every selector turns visible from instant 1. -/
def visBoth : Nat → String → Bool := fun i _ => decide (1 ≤ i)

/-- A visibility oracle where only "a" turns visible (from instant 1). -/
def visOnlyA : Nat → String → Bool := fun i s => decide (s = "a") && decide (1 ≤ i)

/-- Witness for C7: with both selectors visible from instant 1 the wait
succeeds; with only "a" ever visible the timeout error names exactly "b". -/
theorem c7_wait_all_witness :
    (∃ r, wait_all visBoth ["a", "b"] 100 = .ok r) ∧
    wait_all visOnlyA ["a", "b"] 100 =
      .error ("Timeout " ++ toString (100 : Nat) ++ "ms exceeded. Still missing: [b]") := by
  constructor
  · exact (c7_wait_all.1 visBoth 100).mpr ⟨1, by norm_num, rfl, rfl⟩
  · refine c7_wait_all.2 visOnlyA 100 ?_ (fun i => by simp [visOnlyA]) ⟨1, by norm_num, by decide⟩
    intro i j s hij h
    simp only [visOnlyA, Bool.and_eq_true, decide_eq_true_eq] at h ⊢
    exact ⟨h.1, le_trans h.2 hij⟩

/-- C9: every `Response` the daemon produces satisfies the invariant — the
three constructors `ok_empty`/`ok_value`/`err` maintain it, and so does every
reply the dispatch step writes (for every state, engine, filesystem oracle,
and command). -/
theorem c9_response_invariant :
    respInvariant Response.ok_empty ∧
    (∀ v, respInvariant (Response.ok_value v)) ∧
    (∀ m, respInvariant (Response.err m)) ∧
    (∀ (st : DState) (eng : Engine) (fs : StopFs) (c : Command) (r : Response) (st' : DState),
      dispatchReply st eng fs c = (some r, st') → respInvariant r) :=
  ⟨inv_ok_empty, inv_ok_value, inv_err, dispatchReply_invariant⟩

/-- Witness for C9: the reply to `reload` against a closed session satisfies
the invariant. -/
theorem c9_response_invariant_witness :
    respInvariant (Response.err "No page open. Use 'plwr open <url>' first.") :=
  c9_response_invariant.2.2.2 stClosed testEngine testFs .reload
    (Response.err "No page open. Use 'plwr open <url>' first.") stClosed rfl

/-- C10: `handle_command` never executes the `unreachable!()` arm of its
second match — for every dispatched command and every oracle — because any
command whose second-match arm is the unreachable one has already been
consumed by an early return of the first match. -/
theorem c10_unreachable_arm :
    (∀ (st : DState) (eng : Engine) (fs : StopFs) (c : Command),
      (handle_command st eng fs c).1 ≠ HRes.unreachableHit) ∧
    (∀ (st : DState) (eng : Engine) (fs : StopFs) (c : Command),
      (handleSecond st eng fs c).1 = HRes.unreachableHit →
        (handleFirst st eng c).isSome = true) := by
  constructor
  · intro st eng fs c h
    have hs := handle_command_sound st eng fs c
    rw [h] at hs
    exact hs
  · intro st eng fs c h
    by_cases hn : handleFirst st eng c = none
    · exfalso
      have hs := handleSecond_sound st eng fs c hn
      rw [h] at hs
      exact hs
    · exact Option.isSome_iff_ne_none.mpr hn

/-- Witness for C10: `HeaderClear` — one of the unreachable-arm constructors —
is consumed by the first match. -/
theorem c10_unreachable_arm_witness :
    (handleFirst stClosed testEngine .headerClear).isSome = true :=
  c10_unreachable_arm.2 stClosed testEngine testFs .headerClear rfl

/-- C6 counterexample: `"Error: Error: x"` is a single-line output of
normalization (namely of `"Error: Error: Error: x"`), yet normalizing it
again strips one more `"Error: "` layer, so
`normalize (normalize e) ≠ normalize e`. -/
theorem c6_counterexample :
    clean_error "Error: Error: Error: x" = "Error: Error: x" ∧
    clean_error "Error: Error: x" = "Error: x" ∧
    clean_error (clean_error "Error: Error: x") = "x" ∧
    clean_error (clean_error "Error: Error: x") ≠ clean_error "Error: Error: x" ∧
    containsStr "\n" "Error: Error: x" = false := by
  refine ⟨?_, ?_, ?_, ?_, ?_⟩ <;> decide

/-- Witness for C6 amended: a hint-triggering strict-mode message with a
well-formed selector annotation is normalized idempotently. -/
theorem c6_clean_error_idempotent_witness :
    cleanErrorL (cleanErrorL "locator resolved to 3 elements [selector: li.item]".data) =
      cleanErrorL "locator resolved to 3 elements [selector: li.item]".data :=
  c6_clean_error_idempotent _ (by decide) (by decide) (by decide)
    (Or.inr ⟨"li.item".data, [], by decide, by decide, by decide, by decide⟩)

end Plwr
